import Mathlib

/-!
Shallow embedding of the jose-universal JOSE core (JWE/JWS header handling,
Concat-KDF, ECDH-ES pipeline plumbing, timing mitigation, flattened
encrypt/verify) and proofs about the behaviour of those functions.

JavaScript runtime values that can appear in JOSE headers are modelled by
`JVal`; headers are association lists in insertion order, matching the
enumeration order of plain JS objects.  External collaborators (curve
provider, AEAD provider, JSON/base64url codecs used on the decode side)
are passed in as explicit function parameters, mirroring the provider
interfaces of the library.
-/

namespace Jose

/-- Byte strings (each entry is a byte value 0..255 of a `Uint8Array`). -/
abbrev Bytes := List Nat

/-- JavaScript runtime values reachable in JOSE header processing:
JSON values plus `Uint8Array` (`u8a`). -/
inductive JVal where
  | null
  | bool (b : Bool)
  | num (n : Int)
  | str (s : String)
  | arr (xs : List JVal)
  | obj (kvs : List (String × JVal))
  | u8a (bs : Bytes)
deriving Repr

/-- JS falsiness for the values of `JVal` (objects, arrays and typed arrays
are always truthy). -/
def jsFalsy : JVal → Bool
  | .null => true
  | .bool b => !b
  | .num n => n == 0
  | .str s => s == ""
  | _ => false

/-- `isPlainObject` of the source: true exactly for plain objects. -/
def JVal.isObj : JVal → Bool
  | .obj _ => true
  | _ => false

/-- Key/value entries of a value when it is an object, `[]` otherwise. -/
def objKvs : JVal → List (String × JVal)
  | .obj kvs => kvs
  | _ => []

/-- Property access on an association-list header (`header[key]`);
`none` models JS `undefined`. -/
def hGet : List (String × JVal) → String → Option JVal
  | [], _ => none
  | (k, v) :: rest, key => if k = key then some v else hGet rest key

/-- Optional-chaining property access (`maybeHeader?.[key]`): yields
`undefined` when the receiver is absent or not an object. -/
def pGet : Option JVal → String → Option JVal
  | some (.obj kvs), key => hGet kvs key
  | _, _ => none

/-- Lookup in a string-to-boolean record (`Record<string, boolean>`). -/
def flagGet : List (String × Bool) → String → Option Bool
  | [], _ => none
  | (k, v) :: rest, key => if k = key then some v else flagGet rest key

/-- JS object spread `{...a, ...b}` on plain objects: the result keeps the
keys of `a` in order (values overridden by `b` where `b` has the key),
followed by the keys of `b` that are new. -/
def spreadObj (a b : List (String × JVal)) : List (String × JVal) :=
  a.map (fun kv => (kv.1, (hGet b kv.1).getD kv.2)) ++
    b.filter (fun kv => (hGet a kv.1).isNone)

/-- The object entries contributed by spreading an optional JS value: a plain
object contributes its entries; absent or primitive values contribute none
(the only non-object values that reach a spread in the library are falsy
primitives, which spread to nothing in JS as well). -/
def spreadKvs : Option JVal → List (String × JVal)
  | some (.obj kvs) => kvs
  | _ => []

/-- UTF-8 encoding of a single character (`TextEncoder`). -/
def utf8Char (c : Char) : Bytes :=
  let n := c.toNat
  if n < 128 then [n]
  else if n < 2048 then [192 + n / 64, 128 + n % 64]
  else if n < 65536 then [224 + n / 4096, 128 + n / 64 % 64, 128 + n % 64]
  else [240 + n / 262144, 128 + n / 4096 % 64, 128 + n / 64 % 64, 128 + n % 64]

/-- UTF-8 encoding of a string (`TextEncoder().encode`). -/
def utf8 (s : String) : Bytes :=
  (s.toList.map utf8Char).flatten

/-- The base64url alphabet. -/
def base64UrlAlphabet : List Char :=
  "ABCDEFGHIJKLMNOPQRSTUVWXYZabcdefghijklmnopqrstuvwxyz0123456789-_".toList

/-- Character for a 6-bit group. -/
def b64Char (n : Nat) : Char :=
  base64UrlAlphabet.getD n 'A'

/-- Base64url encoding without padding (`encodeBase64Url` of `u8a-utils`). -/
def encodeBase64Url : Bytes → String
  | [] => ""
  | [b1] =>
    String.mk [b64Char (b1 / 4), b64Char (b1 % 4 * 16)]
  | [b1, b2] =>
    String.mk [b64Char (b1 / 4), b64Char (b1 % 4 * 16 + b2 / 16),
      b64Char (b2 % 16 * 4)]
  | b1 :: b2 :: b3 :: rest =>
    String.mk [b64Char (b1 / 4), b64Char (b1 % 4 * 16 + b2 / 16),
      b64Char (b2 % 16 * 4 + b3 / 64), b64Char (b3 % 64)] ++
      encodeBase64Url rest

/-- Hexadecimal digit. -/
def hexDigit (n : Nat) : Char :=
  "0123456789abcdef".toList.getD n '0'

/-- Four-digit lowercase hex, as used in JSON `\uXXXX` escapes. -/
def hex4 (n : Nat) : String :=
  String.mk [hexDigit (n / 4096 % 16), hexDigit (n / 256 % 16),
    hexDigit (n / 16 % 16), hexDigit (n % 16)]

/-- JSON escaping of one character, following `JSON.stringify`. -/
def jsonEscapeChar (c : Char) : String :=
  if c = '"' then "\\\""
  else if c = '\\' then "\\\\"
  else if c = '\x08' then "\\b"
  else if c = '\x09' then "\\t"
  else if c = '\x0a' then "\\n"
  else if c = '\x0c' then "\\f"
  else if c = '\x0d' then "\\r"
  else if c.toNat < 32 then "\\u" ++ hex4 c.toNat
  else String.singleton c

/-- JSON escaping of a string body. -/
def jsonEscape (s : String) : String :=
  String.join (s.toList.map jsonEscapeChar)

/-- Serialization of a `Uint8Array` body as `JSON.stringify` renders typed
arrays: index/value entries. -/
def u8aJson (bs : Bytes) : String :=
  String.intercalate ","
    ((List.range bs.length).map
      (fun i => "\"" ++ toString i ++ "\":" ++ toString (bs.getD i 0)))

mutual

/-- `JSON.stringify` on the modelled JS values. -/
def jsonStringify : JVal → String
  | .null => "null"
  | .bool true => "true"
  | .bool false => "false"
  | .num n => toString n
  | .str s => "\"" ++ jsonEscape s ++ "\""
  | .arr xs => "[" ++ jsonStringifyArr xs ++ "]"
  | .obj kvs => "\x7b" ++ jsonStringifyObj kvs ++ "\x7d"
  | .u8a bs => "\x7b" ++ u8aJson bs ++ "\x7d"

/-- Comma-joined serialization of array elements. -/
def jsonStringifyArr : List JVal → String
  | [] => ""
  | [x] => jsonStringify x
  | x :: y :: xs => jsonStringify x ++ "," ++ jsonStringifyArr (y :: xs)

/-- Comma-joined serialization of object entries. -/
def jsonStringifyObj : List (String × JVal) → String
  | [] => ""
  | [(k, v)] => "\"" ++ jsonEscape k ++ "\":" ++ jsonStringify v
  | (k, v) :: e :: kvs =>
    "\"" ++ jsonEscape k ++ "\":" ++ jsonStringify v ++ "," ++
      jsonStringifyObj (e :: kvs)

end

/-- Big-endian 32-bit byte encoding (`toUint32BE` of `u8a-utils`). -/
def toUint32BE (n : Nat) : Bytes :=
  [n / 16777216 % 256, n / 65536 % 256, n / 256 % 256, n % 256]

/-- The typed error taxonomy of the library (plus the plain JS error kinds
the modelled code can throw). -/
inductive JoseErr where
  | joseInvalid (msg : String)
  | joseNotSupported (msg : String)
  | jweInvalid (msg : String)
  | jweNotSupported (msg : String)
  | jwsInvalid (msg : String)
  | jwsNotSupported (msg : String)
  | jwsSignatureVerificationFailed
  | rangeError (msg : String)
  | genericError (msg : String)
deriving Repr, DecidableEq

/-- Whether an error belongs to the `not supported` taxonomy. -/
def JoseErr.isNotSupported : JoseErr → Bool
  | .joseNotSupported _ => true
  | .jweNotSupported _ => true
  | .jwsNotSupported _ => true
  | _ => false

/-- Whether an error belongs to the `invalid` taxonomy. -/
def JoseErr.isInvalid : JoseErr → Bool
  | .joseInvalid _ => true
  | .jweInvalid _ => true
  | .jwsInvalid _ => true
  | _ => false

/-! ## KDF substrate: OtherInfo builder and Concat-KDF -/

/-- Modelled from the spec: the external AEAD provider contract
(`isEnc` of `aes-universal`) recognizes exactly the six supported
content-encryption algorithms. -/
def isEnc (name : String) : Bool :=
  name == "A128GCM" || name == "A192GCM" || name == "A256GCM" ||
    name == "A128CBC-HS256" || name == "A192CBC-HS384" ||
    name == "A256CBC-HS512"

/-- `lengthAndInput`: prepends the 32-bit big-endian byte count, guarding
against inputs whose length does not fit in 32 bits. -/
def lengthAndInput (input : Bytes) : Except JoseErr Bytes :=
  if input.length > 4294967295 then .error (.rangeError "Input too large")
  else .ok (toUint32BE input.length ++ input)

/-- `buildKdfOtherInfo`: the RFC 7518 section 4.6.2 OtherInfo structure.
Absent `apu`/`apv` default to the empty byte string. -/
def buildKdfOtherInfo (algorithm : String) (apu apv : Option Bytes)
    (keyBitLength : Nat) : Except JoseErr Bytes :=
  let apuB := apu.getD []
  let apvB := apv.getD []
  if apuB.length > 32 || apvB.length > 32 then
    .error (.jweInvalid "APU/APV must be less than or equal to 32 bytes")
  else if !(isEnc algorithm) then
    .error (.jweNotSupported
      "\"enc\" (Content Encryption Algorithm) is not supported")
  else
    match lengthAndInput (utf8 algorithm) with
    | .error e => .error e
    | .ok a =>
      match lengthAndInput apuB with
      | .error e => .error e
      | .ok u =>
        match lengthAndInput apvB with
        | .error e => .error e
        | .ok v => .ok (a ++ u ++ v ++ toUint32BE keyBitLength)

/-- `cekBitLengthByEnc`: CEK bit length for each supported `enc`. -/
def cekBitLengthByEnc (enc : String) : Except JoseErr Nat :=
  if enc = "A128GCM" then .ok 128
  else if enc = "A192GCM" then .ok 192
  else if enc = "A256GCM" then .ok 256
  else if enc = "A128CBC-HS256" then .ok 256
  else if enc = "A192CBC-HS384" then .ok 384
  else if enc = "A256CBC-HS512" then .ok 512
  else .error (.genericError ("Unsupported JWE Encryption Algorithm: " ++ enc))

/-- `Uint8Array.prototype.set`: writes `src` into `dst` at `offset`
(all uses in the modelled code stay within bounds). -/
def u8aSet (dst : Bytes) (offset : Nat) (src : Bytes) : Bytes :=
  dst.take offset ++ src ++ dst.drop (offset + src.length)

/-- `concatKdf`: the NIST SP 800-56A / RFC 7518 section 4.6.2 Concat KDF
with SHA-256, abstracted over the hash primitive.  `keyBitLength` is a JS
number, modelled as a rational so the `Number.isInteger` guard is faithful. -/
def concatKdf (sha256 : Bytes → Bytes) (sharedSecret : Bytes)
    (keyBitLength : ℚ) (otherInfo : Bytes) : Except JoseErr Bytes :=
  if !(keyBitLength.isInt && decide (0 < keyBitLength)) then
    .error (.rangeError "keyBitLength must be a positive integer")
  else
    let kbl : Nat := keyBitLength.num.toNat
    let outBytes := kbl / 8
    let iterations := (outBytes + 31) / 32
    let res : Bytes := List.replicate (iterations * 32) 0
    let final := (List.range iterations).foldl
      (fun acc iter =>
        u8aSet acc (iter * 32)
          (sha256 (toUint32BE (iter + 1) ++ sharedSecret ++ otherInfo)))
      res
    .ok (final.take outBytes)

/-! ## Timing-mitigation wrapper (RFC 7516 section 11.5) -/

/-- The non-deterministic inputs of the mitigation step: the value drawn
from `Math.random()` and the provider's `randomBytes`. -/
structure MitigationDeps where
  random : ℚ
  randomBytes : Nat → Bytes

/-- `generateMitigatedCek`: sleeps `200 + random * 300` milliseconds, then
draws a random CEK of the length required by `enc`.  The returned pair is
(slept delay, result). -/
def generateMitigatedCek (deps : MitigationDeps) (enc : String) :
    ℚ × Except JoseErr Bytes :=
  let delay := 200 + deps.random * 300
  (delay, (cekBitLengthByEnc enc).map (fun bits => deps.randomBytes (bits / 8)))

/-- `deriveDecryptionKeyWithMitigation`: returns the derived CEK on success;
on any derivation failure, produces the mitigated CEK instead.  The second
component lists the delays slept. -/
def deriveDecryptionKeyWithMitigation (derive : Except JoseErr Bytes)
    (deps : MitigationDeps) (enc : String) :
    Except JoseErr Bytes × List ℚ :=
  match derive with
  | .ok cek => (.ok cek, [])
  | .error _ =>
    let (delay, mitigated) := generateMitigatedCek deps enc
    (mitigated, [delay])

/-! ## Header composition and validation -/

/-- Truthiness of an optional JS value. -/
def jsTruthyOpt : Option JVal → Bool
  | some v => !jsFalsy v
  | none => false

/-- `areDisjoint` over the three JWE header positions: drops falsy
arguments (`filter(Boolean)`), then walks the remaining objects with an
accumulated key set, failing on the first repeated parameter name. -/
def disjointLoop (acc : List String) : List (List (String × JVal)) → Bool
  | [] => true
  | s :: ss =>
    let params := s.map Prod.fst
    if params.any (fun p => acc.contains p) then false
    else disjointLoop (acc ++ params) ss

/-- `areDisjoint` at its three-argument JWE call site. -/
def areDisjoint (h1 h2 h3 : Option JVal) : Bool :=
  let sources := ([h1, h2, h3].filterMap id).filter (fun v => !jsFalsy v)
  match sources with
  | [] => true
  | [_] => true
  | s0 :: rest => disjointLoop ((objKvs s0).map Prod.fst) (rest.map objKvs)

/-- `areDisjoint` at its two-argument JWS call site. -/
def areDisjoint2 (h1 h2 : Option JVal) : Bool :=
  let sources := ([h1, h2].filterMap id).filter (fun v => !jsFalsy v)
  match sources with
  | [] => true
  | [_] => true
  | s0 :: rest => disjointLoop ((objKvs s0).map Prod.fst) (rest.map objKvs)

/-- `verifyJweHeaders`: the protected header must be a truthy, non-empty
plain object; other positions must be plain objects when truthy; parameter
names must be disjoint across positions. -/
def verifyJweHeaders (protectedHeader sharedUnprotectedHeader
    unprotectedHeader : Option JVal) : Except JoseErr Unit :=
  if !(jsTruthyOpt protectedHeader) then
    .error (.jweInvalid "JWE Protected Header is missing")
  else if !((protectedHeader.getD .null).isObj) then
    .error (.jweInvalid "JWE Protected Header is not a plain object")
  else if (objKvs (protectedHeader.getD .null)).length = 0 then
    .error (.jweInvalid "JWE Protected Header is empty")
  else if jsTruthyOpt sharedUnprotectedHeader &&
      !((sharedUnprotectedHeader.getD .null).isObj) then
    .error (.jweInvalid "JWE Shared Unprotected Header is not a plain object")
  else if jsTruthyOpt unprotectedHeader &&
      !((unprotectedHeader.getD .null).isObj) then
    .error (.jweInvalid
      "JWE Per-Recipient Unprotected Header is not a plain object")
  else if !(areDisjoint protectedHeader sharedUnprotectedHeader
      unprotectedHeader) then
    .error (.jweInvalid
      "JWE Protected, JWE Shared Unprotected and JWE Per-Recipient Header Parameter names must be disjoint")
  else .ok ()

/-- `mergeJweHeaders`: verifies the three positions, merges them with the
protected header taking precedence, and rejects the `zip` parameter. -/
def mergeJweHeaders (protectedHeader sharedUnprotectedHeader
    unprotectedHeader : Option JVal) :
    Except JoseErr (List (String × JVal)) :=
  match verifyJweHeaders protectedHeader sharedUnprotectedHeader
      unprotectedHeader with
  | .error e => .error e
  | .ok _ =>
    let joseHeader := spreadObj
      (spreadObj (spreadKvs unprotectedHeader) (spreadKvs sharedUnprotectedHeader))
      (spreadKvs protectedHeader)
    if (hGet joseHeader "zip").isSome then
      .error (.jweNotSupported
        "JWE \"zip\" (Compression Algorithm) Header Parameter is not supported.")
    else .ok joseHeader

/-- `verifyJwsHeaders`: the JWS variant over two positions. -/
def verifyJwsHeaders (protectedHeader unprotectedHeader : Option JVal) :
    Except JoseErr Unit :=
  if !(jsTruthyOpt protectedHeader) then
    .error (.jwsInvalid "JWS Protected Header is missing")
  else if !((protectedHeader.getD .null).isObj) then
    .error (.jwsInvalid "JWS Protected Header is not a plain object")
  else if (objKvs (protectedHeader.getD .null)).length = 0 then
    .error (.jwsInvalid "JWS Protected Header is empty")
  else if jsTruthyOpt unprotectedHeader &&
      !((unprotectedHeader.getD .null).isObj) then
    .error (.jwsInvalid "JWS Unprotected Header is not a plain object")
  else if !(areDisjoint2 protectedHeader unprotectedHeader) then
    .error (.jwsInvalid
      "JWS Protected and JWS Unprotected Header Parameter names must be disjoint")
  else .ok ()

/-- `mergeJwsHeaders`: verification followed by the two-way spread with the
protected header taking precedence. -/
def mergeJwsHeaders (protectedHeader unprotectedHeader : Option JVal) :
    Except JoseErr (List (String × JVal)) :=
  match verifyJwsHeaders protectedHeader unprotectedHeader with
  | .error e => .error e
  | .ok _ =>
    .ok (spreadObj (spreadKvs unprotectedHeader) (spreadKvs protectedHeader))

/-- JS `value == null` on an optional property value. -/
def jsNullish : Option JVal → Bool
  | none => true
  | some .null => true
  | _ => false

/-- Whether a value is a non-empty JS string. -/
def isNonEmptyStr : JVal → Bool
  | .str s => s ≠ ""
  | _ => false

/-- The string carried by a `JVal.str`, with a default elsewhere. -/
def strVal : JVal → String
  | .str s => s
  | _ => ""

/-- The recognized-parameter map built by `validateCrit`:
`new Map([...Object.entries(recognizedDefault), ...Object.entries(recognizedOption)])`,
where later entries win, so the option set takes precedence. -/
def recognizedLookup (recognizedDefault recognizedOption : List (String × Bool))
    (name : String) : Option Bool :=
  match flagGet recognizedOption name with
  | some b => some b
  | none => flagGet recognizedDefault name

/-- The per-name loop of `validateCrit`: each critical name must be
recognized, present in the merged header, and — when its flag requires
integrity protection — non-nullish in the protected header. -/
def critLoop (mkErr : String → JoseErr)
    (recognizedDefault recognizedOption : List (String × Bool))
    (protectedHeader : Option JVal) (joseHeader : List (String × JVal)) :
    List String → Except JoseErr Unit
  | [] => .ok ()
  | n :: ns =>
    if (recognizedLookup recognizedDefault recognizedOption n).isNone then
      .error (mkErr ("\"crit\" (Critical) header parameter \"" ++ n ++
        "\" is not recognized"))
    else if (hGet joseHeader n).isNone then
      .error (mkErr ("\"crit\" (Critical) header parameter \"" ++ n ++
        "\" is missing in the JOSE header"))
    else if ((recognizedLookup recognizedDefault recognizedOption n).getD false)
        && jsNullish (pGet protectedHeader n) then
      .error (mkErr ("\"crit\" (Critical) header parameter \"" ++ n ++
        "\" MUST be integrity protected"))
    else critLoop mkErr recognizedDefault recognizedOption protectedHeader
      joseHeader ns

/-- `validateCrit`: the crit rule shared by all four operations, returning
the list of critical parameter names on success. -/
def validateCrit (mkErr : String → JoseErr)
    (recognizedDefault : List (String × Bool))
    (recognizedOption : Option (List (String × Bool)))
    (protectedHeader : Option JVal) (joseHeader : List (String × JVal)) :
    Except JoseErr (List String) :=
  if (hGet joseHeader "crit").isSome &&
      (pGet protectedHeader "crit").isNone then
    .error (mkErr
      "\"crit\" (Critical) Header Parameter MUST be integrity protected")
  else
    match pGet protectedHeader "crit" with
    | none => .ok []
    | some critV =>
      match critV with
      | .arr xs =>
        if xs.isEmpty || xs.any (fun x => !(isNonEmptyStr x)) then
          .error (mkErr
            "\"crit\" (Critical) Header Parameter MUST be an array of non-empty strings when present")
        else
          let names := xs.map strVal
          match critLoop mkErr recognizedDefault (recognizedOption.getD [])
              protectedHeader joseHeader names with
          | .error e => .error e
          | .ok _ => .ok names
      | _ =>
        .error (mkErr
          "\"crit\" (Critical) Header Parameter MUST be an array of non-empty strings when present")

/-- `validateJweAlg`: only `ECDH-ES` is accepted; missing/empty/non-string
values are `invalid`, other strings are `not supported`. -/
def validateJweAlg (alg : Option JVal) : Except JoseErr String :=
  match alg with
  | none => .error (.jweInvalid "\"alg\" (Key Management Algorithm) is invalid")
  | some .null =>
    .error (.jweInvalid "\"alg\" (Key Management Algorithm) is invalid")
  | some (.str s) =>
    if s = "" then
      .error (.jweInvalid "\"alg\" (Key Management Algorithm) is invalid")
    else if s = "ECDH-ES" then .ok s
    else .error (.jweNotSupported
      "The specified \"alg\" (Key Management Algorithm) is not supported")
  | some _ =>
    .error (.jweInvalid "\"alg\" (Key Management Algorithm) is invalid")

/-- `validateJweEnc`: membership in the six supported content-encryption
algorithms; missing/empty/non-string values are `invalid`, other strings
`not supported`. -/
def validateJweEnc (enc : Option JVal) : Except JoseErr String :=
  match enc with
  | none =>
    .error (.jweInvalid "\"enc\" (Content Encryption Algorithm) is invalid")
  | some .null =>
    .error (.jweInvalid "\"enc\" (Content Encryption Algorithm) is invalid")
  | some (.str s) =>
    if s = "" then
      .error (.jweInvalid "\"enc\" (Content Encryption Algorithm) is invalid")
    else if isEnc s then .ok s
    else .error (.jweNotSupported
      "The specified \"enc\" (Content Encryption Algorithm) is not supported")
  | some _ =>
    .error (.jweInvalid "\"enc\" (Content Encryption Algorithm) is invalid")

/-! ## JWE flattened encryption pipeline -/

/-- `encodeBase64UrlHeader`: empty string for a falsy header, otherwise the
base64url of the UTF-8 JSON serialization. -/
def encodeBase64UrlHeader (header : Option JVal) : String :=
  match header with
  | none => ""
  | some h => if jsFalsy h then "" else encodeBase64Url (utf8 (jsonStringify h))

/-- `encodeAesAad`: the AEAD-level AAD string; the caller AAD segment is
appended after a dot only when its base64url form is truthy (non-empty). -/
def encodeAesAad (protectedHeaderB64U : String) (aadB64U : Option String) :
    Bytes :=
  let aadString :=
    match aadB64U with
    | some a => if a ≠ "" then protectedHeaderB64U ++ "." ++ a
                else protectedHeaderB64U
    | none => protectedHeaderB64U
  utf8 aadString

/-- `FlattenedEncrypter.updateProtectedHeader`: merges the key-agreement
header parameters into the protected header via object spread, with the
parameters spread last. -/
def updateProtectedHeader (protectedHeader : Option JVal)
    (parameters : Option JVal) : Option JVal :=
  match parameters with
  | none => protectedHeader
  | some ps =>
    if jsFalsy ps then protectedHeader
    else
      match protectedHeader with
      | none => some ps
      | some ph =>
        if jsFalsy ph then some ps
        else some (.obj (spreadObj (objKvs ph) (objKvs ps)))

/-- JWE key management parameters supplied through the builder. -/
structure KmParams where
  apu : Option Bytes := none
  apv : Option Bytes := none
deriving Repr

/-- The result shape of `deriveEncryptionKey`. -/
structure DeriveResult where
  cek : Bytes
  encryptedKey : Option Bytes
  parameters : Option JVal
deriving Repr

/-- The result shape of the AEAD provider's `encrypt`. -/
structure AesEncResult where
  ciphertext : Bytes
  tag : Bytes
  iv : Bytes
deriving Repr

/-- External collaborators of `FlattenedEncrypter.encrypt`: the ECDH curve
registry, the JWK-to-raw conversion, the ECDH-ES derivation, and the AEAD
provider. -/
structure EncDeps where
  ecdhCrvSupported : JVal → Bool
  toRawPublicKey : JVal → Except String Bytes
  deriveEncryptionKey : String → String → Bytes → Option KmParams →
    Except String DeriveResult
  aesEncrypt : String → Bytes → Bytes → Bytes → Except String AesEncResult

/-- Cryptographic work performed during an encryption run. -/
inductive EncEvent where
  | derivedEncryptionKey
  | aesEncrypted (enc : String) (plaintext cek aad : Bytes)
deriving Repr

/-- The flattened JWE container (`protectedB64U` models the `protected`
member). -/
structure FlattenedJwe where
  protectedB64U : String
  ciphertext : String
  iv : String
  tag : String
  encrypted_key : Option String := none
  aad : Option String := none
  unprotected : Option JVal := none
  header : Option JVal := none
deriving Repr

/-- The body of the `try` block of `FlattenedEncrypter.encrypt`, paired
with the crypto events it performed. -/
def flattenedEncryptInner (deps : EncDeps)
    (protectedHeader sharedUnprotectedHeader unprotectedHeader : Option JVal)
    (kmParams : Option KmParams) (callerAad : Option Bytes) (plaintext : Bytes)
    (jwkV crvV : JVal) (optCrit : Option (List (String × Bool))) :
    Except JoseErr FlattenedJwe × List EncEvent :=
  if !(deps.ecdhCrvSupported crvV) then
    (.error (.joseNotSupported "Unsupported curve"), [])
  else
    match deps.toRawPublicKey jwkV with
    | .error m => (.error (.genericError m), [])
    | .ok yourPublicKey =>
      match mergeJweHeaders protectedHeader sharedUnprotectedHeader
          unprotectedHeader with
      | .error e => (.error e, [])
      | .ok joseHeader =>
        match validateCrit JoseErr.jweInvalid [] optCrit protectedHeader
            joseHeader with
        | .error e => (.error e, [])
        | .ok _ =>
          match validateJweAlg (pGet protectedHeader "alg") with
          | .error e => (.error e, [])
          | .ok alg =>
            match validateJweEnc (pGet protectedHeader "enc") with
            | .error e => (.error e, [])
            | .ok enc =>
              match deps.deriveEncryptionKey alg enc yourPublicKey kmParams with
              | .error m => (.error (.genericError m), [.derivedEncryptionKey])
              | .ok dr =>
                let updated := updateProtectedHeader protectedHeader
                  dr.parameters
                let protectedHeaderB64U := encodeBase64UrlHeader updated
                let aadB64U := callerAad.map encodeBase64Url
                let aad := encodeAesAad protectedHeaderB64U aadB64U
                match deps.aesEncrypt enc plaintext dr.cek aad with
                | .error m =>
                  (.error (.genericError m),
                    [.derivedEncryptionKey, .aesEncrypted enc plaintext dr.cek aad])
                | .ok r =>
                  (.ok {
                    protectedB64U := protectedHeaderB64U,
                    ciphertext := encodeBase64Url r.ciphertext,
                    iv := encodeBase64Url r.iv,
                    tag := encodeBase64Url r.tag,
                    encrypted_key := dr.encryptedKey.map encodeBase64Url,
                    aad := if callerAad.isSome then aadB64U else none,
                    unprotected := if jsTruthyOpt sharedUnprotectedHeader then
                      sharedUnprotectedHeader else none,
                    header := if jsTruthyOpt unprotectedHeader then
                      unprotectedHeader else none },
                    [.derivedEncryptionKey, .aesEncrypted enc plaintext dr.cek aad])

/-- `FlattenedEncrypter.encrypt`: argument validation, then the inner
pipeline with every inner failure collapsed into the uniform
`Failed to encrypt plaintext` error. -/
def flattenedEncrypt (deps : EncDeps)
    (protectedHeader sharedUnprotectedHeader unprotectedHeader : Option JVal)
    (kmParams : Option KmParams) (callerAad : Option Bytes)
    (plaintext : Option Bytes) (jwk : Option JVal)
    (optCrit : Option (List (String × Bool))) :
    Except JoseErr FlattenedJwe × List EncEvent :=
  match plaintext with
  | none => (.error (.jweInvalid "plaintext is missing"), [])
  | some pt =>
    match jwk with
    | none => (.error (.jweInvalid "yourJwkPublicKey is missing"), [])
    | some jwkV =>
      if jsFalsy jwkV then
        (.error (.jweInvalid "yourJwkPublicKey is missing"), [])
      else if !jwkV.isObj then
        (.error (.jweInvalid "yourJwkPublicKey must be a plain object"), [])
      else
        match hGet (objKvs jwkV) "crv" with
        | none => (.error (.jweInvalid "yourJwkPublicKey.crv is missing"), [])
        | some crvV =>
          if jsFalsy crvV then
            (.error (.jweInvalid "yourJwkPublicKey.crv is missing"), [])
          else
            let (r, evs) := flattenedEncryptInner deps protectedHeader
              sharedUnprotectedHeader unprotectedHeader kmParams callerAad pt
              jwkV crvV optCrit
            match r with
            | .ok jwe => (.ok jwe, evs)
            | .error _ =>
              (.error (.jweInvalid "Failed to encrypt plaintext"), evs)

/-! ## JWS flattened verification pipeline -/

/-- `JWS_ALGS` membership (`isJwsAlg`). -/
def isJwsAlg (s : String) : Bool :=
  s == "ES256" || s == "ES384" || s == "ES512" || s == "ES256K" || s == "EdDSA"

/-- `decodeRequiredBase64Url`, abstracted over the external base64url
decoder: absent values are `"<label>" is missing`, non-strings are type
errors, decoder failures are wrapped with the label. -/
def decodeRequiredBase64Url (decode : String → Except Unit Bytes)
    (b64u : Option JVal) (label : String) : Except JoseErr Bytes :=
  match b64u with
  | none => .error (.joseInvalid ("\"" ++ label ++ "\" is missing"))
  | some .null => .error (.joseInvalid ("\"" ++ label ++ "\" is missing"))
  | some (.str s) =>
    match decode s with
    | .ok bs => .ok bs
    | .error _ =>
      .error (.joseInvalid ("Failed to base64url decode \"" ++ label ++ "\""))
  | some _ => .error (.joseInvalid ("\"" ++ label ++ "\" must be a string"))

/-- `parseBase64UrlHeader`: required base64url decode, UTF-8 decode, JSON
parse, plain-object check.  The inner non-object throw is caught by the
function's own catch, so both parse failure and a non-object result yield
the same message. -/
def parseBase64UrlHeader (decode : String → Except Unit Bytes)
    (utf8Decode : Bytes → String) (jsonParse : String → Except Unit JVal)
    (headerB64U : Option JVal) (label : String) : Except JoseErr JVal :=
  match decodeRequiredBase64Url decode headerB64U label with
  | .error e => .error e
  | .ok bytes =>
    match jsonParse (utf8Decode bytes) with
    | .error _ =>
      .error (.joseInvalid
        ("Failed to parse base64url encoded \"" ++ label ++ "\""))
    | .ok parsed =>
      if parsed.isObj then .ok parsed
      else .error (.joseInvalid
        ("Failed to parse base64url encoded \"" ++ label ++ "\""))

/-- The flattened JWS input (`protectedB64U` models the `protected`
member; the payload may be a string or a `Uint8Array`). -/
structure FlattenedJwsInput where
  protectedB64U : Option JVal := none
  payload : Option JVal := none
  signature : Option JVal := none
  header : Option JVal := none
deriving Repr

/-- External collaborators of `FlattenedVerifier.verify`. -/
structure VerifyDeps where
  decodeB64u : String → Except Unit Bytes
  utf8Decode : Bytes → String
  jsonParse : String → Except Unit JVal
  sigCrvSupported : JVal → Bool
  toRawPublicKey : JVal → Except String Bytes
  signatureAlgorithmName : String
  verify : Bytes → Bytes → Bytes → Bool

/-- `validateFlattenedJws`: decodes the signature, validates the optional
unprotected header, parses the protected header, merges headers, and
checks the payload's shape. -/
def validateFlattenedJws (deps : VerifyDeps) (jws : FlattenedJwsInput) :
    Except JoseErr (Bytes × List (String × JVal) × JVal) :=
  match decodeRequiredBase64Url deps.decodeB64u jws.signature
      "JWS Signature" with
  | .error e => .error e
  | .ok signature =>
    if (match jws.header with
        | some h => !h.isObj
        | none => false) then
      .error (.jwsInvalid "JWS Unprotected Header is invalid")
    else
      match parseBase64UrlHeader deps.decodeB64u deps.utf8Decode deps.jsonParse
          jws.protectedB64U "JWS Protected Header" with
      | .error e => .error e
      | .ok parsedProtected =>
        match mergeJwsHeaders (some parsedProtected) jws.header with
        | .error e => .error e
        | .ok joseHeader =>
          match jws.payload with
          | none => .error (.jwsInvalid "JWS Payload is missing")
          | some .null => .error (.jwsInvalid "JWS Payload is missing")
          | some (.str _) => .ok (signature, joseHeader, parsedProtected)
          | some (.u8a _) => .ok (signature, joseHeader, parsedProtected)
          | some _ =>
            .error (.jwsInvalid "JWS Payload must be a string or Uint8Array")

/-- `parseB64`: resolves RFC 7797's `b64` parameter; outside the critical
set it is unconditionally `true`. -/
def parseB64 (b64 : Option JVal) (criticalParamNames : List String) :
    Except JoseErr Bool :=
  if criticalParamNames.contains "b64" then
    match (match b64 with
           | none => JVal.bool true
           | some .null => JVal.bool true
           | some v => v) with
    | .bool b => .ok b
    | _ => .error (.jwsInvalid
        "The \"b64\" (base64url-encode payload) Header Parameter must be a boolean")
  else .ok true

/-- `validateJwsAlg`: supported JWS algorithm matching the curve provider's
canonical name. -/
def validateJwsAlg (alg : Option JVal) (expectedAlg : String) :
    Except JoseErr String :=
  match alg with
  | none => .error (.jwsInvalid "\"alg\" (Algorithm) is missing")
  | some .null => .error (.jwsInvalid "\"alg\" (Algorithm) is missing")
  | some (.str s) =>
    if s = "" then .error (.jwsInvalid "\"alg\" (Algorithm) is empty")
    else if !(isJwsAlg s) then
      .error (.jwsNotSupported "The specified \"alg\" (Algorithm) is not supported")
    else if s ≠ expectedAlg then
      .error (.jwsInvalid "\"alg\" (Algorithm) does not match JWK parameters")
    else .ok s
  | some _ => .error (.jwsInvalid "\"alg\" (Algorithm) must be a string")

/-- `encodeVerifyTarget`: builds the verification target and the decoded
payload, enforcing payload shape against `b64`. -/
def encodeVerifyTarget (decode : String → Except Unit Bytes)
    (protectedHeaderB64U : String) (payload : Option JVal) (b64 : Bool) :
    Except JoseErr (Bytes × Bytes) :=
  if b64 then
    match payload with
    | some (.str s) =>
      match decode s with
      | .ok decoded => .ok (utf8 (protectedHeaderB64U ++ "." ++ s), decoded)
      | .error _ => .error (.genericError "Failed to base64url decode payload")
    | _ => .error (.genericError "Payload must be a string when b64=true")
  else
    match payload with
    | some (.u8a bs) => .ok (utf8 (protectedHeaderB64U ++ ".") ++ bs, bs)
    | _ => .error (.genericError "Payload must be a Uint8Array when b64=false")

/-- The result of a successful flattened verification. -/
structure FlattenedVerifyResult where
  payload : Bytes
  protectedHeader : Option JVal := none
  unprotectedHeader : Option JVal := none
deriving Repr

/-- Everything `FlattenedVerifier.verify` computes before invoking the
signature primitive: public key, verify target, signature bytes, decoded
payload, and the parsed protected header. -/
def verifyPrefix (deps : VerifyDeps) (jws : FlattenedJwsInput)
    (jwkV crvV : JVal) (optCrit : Option (List (String × Bool))) :
    Except JoseErr (Bytes × Bytes × Bytes × Bytes × JVal) :=
  if !(deps.sigCrvSupported crvV) then
    .error (.joseNotSupported "Unsupported curve")
  else
    match deps.toRawPublicKey jwkV with
    | .error m => .error (.genericError m)
    | .ok publicKey =>
      match validateFlattenedJws deps jws with
      | .error e => .error e
      | .ok (signature, joseHeader, parsedProtected) =>
        match validateCrit JoseErr.jwsInvalid [("b64", true)] optCrit
            (some parsedProtected) joseHeader with
        | .error e => .error e
        | .ok criticalParamNames =>
          match parseB64 (pGet (some parsedProtected) "b64")
              criticalParamNames with
          | .error e => .error e
          | .ok b64 =>
            match validateJwsAlg (pGet (some parsedProtected) "alg")
                deps.signatureAlgorithmName with
            | .error e => .error e
            | .ok _ =>
              let protectedHeaderB64U :=
                match jws.protectedB64U with
                | some (.str s) => s
                | _ => ""
              match encodeVerifyTarget deps.decodeB64u protectedHeaderB64U
                  jws.payload b64 with
              | .error e => .error e
              | .ok (verifyTarget, payloadBytes) =>
                .ok (publicKey, verifyTarget, signature, payloadBytes,
                  parsedProtected)

/-- The body of the `try` block of `FlattenedVerifier.verify`. -/
def flattenedVerifyInner (deps : VerifyDeps) (jws : FlattenedJwsInput)
    (jwkV crvV : JVal) (optCrit : Option (List (String × Bool))) :
    Except JoseErr FlattenedVerifyResult :=
  match verifyPrefix deps jws jwkV crvV optCrit with
  | .error e => .error e
  | .ok (publicKey, verifyTarget, signature, payloadBytes, parsedProtected) =>
    if deps.verify publicKey verifyTarget signature then
      .ok {
        payload := payloadBytes,
        protectedHeader := if jws.protectedB64U.isSome then
          some parsedProtected else none,
        unprotectedHeader := if jws.header.isSome then jws.header else none }
    else .error .jwsSignatureVerificationFailed

/-- `FlattenedVerifier.verify`: JWK argument validation, then the inner
pipeline; `JwsSignatureVerificationFailed` is rethrown unchanged while
every other inner failure is collapsed into the uniform
`Failed to verify JWS signature` error. -/
def flattenedVerify (deps : VerifyDeps) (jws : FlattenedJwsInput)
    (jwk : Option JVal) (optCrit : Option (List (String × Bool))) :
    Except JoseErr FlattenedVerifyResult :=
  match jwk with
  | none => .error (.jwsInvalid "jwkPublicKey is missing")
  | some jwkV =>
    if !jwkV.isObj then
      .error (.jwsInvalid "jwkPublicKey must be a plain object")
    else
      match hGet (objKvs jwkV) "crv" with
      | none => .error (.jwsInvalid "jwkPublicKey.crv is missing")
      | some crvV =>
        if jsFalsy crvV then
          .error (.jwsInvalid "jwkPublicKey.crv is missing")
        else
          match flattenedVerifyInner deps jws jwkV crvV optCrit with
          | .ok r => .ok r
          | .error .jwsSignatureVerificationFailed =>
            .error .jwsSignatureVerificationFailed
          | .error _ => .error (.jwsInvalid "Failed to verify JWS signature")

/-- A concrete dependency record exercising the encryption pipeline:
derivation emits `epk: "derivedEpk"`, the AEAD returns empty outputs. -/
def sampleEncDeps : EncDeps := {
  ecdhCrvSupported := fun _ => true,
  toRawPublicKey := fun _ => .ok [],
  deriveEncryptionKey := fun _ _ _ _ =>
    .ok { cek := [7], encryptedKey := none,
          parameters := some (.obj [("epk", .str "derivedEpk")]) },
  aesEncrypt := fun _ _ _ _ => .ok { ciphertext := [], tag := [], iv := [] } }

/-- A concrete dependency record exercising the verification pipeline:
all collaborators succeed and the signature primitive always answers
false. -/
def stubVerifyDeps : VerifyDeps := {
  decodeB64u := fun _ => .ok [1],
  utf8Decode := fun _ => "",
  jsonParse := fun _ => .ok (.obj [("alg", .str "ES256")]),
  sigCrvSupported := fun _ => true,
  toRawPublicKey := fun _ => .ok [],
  signatureAlgorithmName := "ES256",
  verify := fun _ _ _ => false }

/-- A concrete flattened JWS input that passes every pre-signature check
of the verification pipeline under `stubVerifyDeps`. -/
def sampleJws : FlattenedJwsInput := {
  protectedB64U := some (.str "ph"),
  payload := some (.str "pl"),
  signature := some (.str "sig"),
  header := none }

/-! ## Association-list lemmas -/

theorem hGet_nil (key : String) : hGet [] key = none := rfl

theorem hGet_cons (k0 : String) (v0 : JVal) (rest : List (String × JVal))
    (key : String) :
    hGet ((k0, v0) :: rest) key = if k0 = key then some v0 else hGet rest key :=
  rfl

theorem hGet_append (l₁ l₂ : List (String × JVal)) (key : String) :
    hGet (l₁ ++ l₂) key =
      match hGet l₁ key with
      | some v => some v
      | none => hGet l₂ key := by
  induction l₁ with
  | nil => simp [hGet]
  | cons kv rest ih =>
    obtain ⟨k0, v0⟩ := kv
    by_cases h : k0 = key <;> simp [hGet, h, ih]

theorem hGet_map_override (a b : List (String × JVal)) (key : String) :
    hGet (a.map (fun kv => (kv.1, (hGet b kv.1).getD kv.2))) key =
      (hGet a key).map (fun v => (hGet b key).getD v) := by
  induction a with
  | nil => simp [hGet]
  | cons kv rest ih =>
    obtain ⟨k0, v0⟩ := kv
    by_cases h : k0 = key
    · subst h
      simp [hGet]
    · simp [hGet, h, ih]

theorem hGet_filter_of_mem (a b : List (String × JVal)) (key : String)
    (h : (hGet a key).isSome) :
    hGet (b.filter (fun kv => (hGet a kv.1).isNone)) key = none := by
  induction b with
  | nil => simp [hGet]
  | cons kv rest ih =>
    obtain ⟨k1, w⟩ := kv
    by_cases hk : k1 = key
    · subst hk
      have : (hGet a k1).isNone = false := by
        cases hh : hGet a k1 <;> simp_all
      simp [List.filter, this, ih]
    · by_cases hp : (hGet a k1).isNone
      · simp [List.filter, hp, hGet, hk, ih]
      · simp only [List.filter]
        rw [Bool.eq_false_iff.mpr hp]
        exact ih

theorem hGet_filter_of_not_mem (a b : List (String × JVal)) (key : String)
    (h : hGet a key = none) :
    hGet (b.filter (fun kv => (hGet a kv.1).isNone)) key = hGet b key := by
  induction b with
  | nil => simp
  | cons kv rest ih =>
    obtain ⟨k1, w⟩ := kv
    by_cases hk : k1 = key
    · subst hk
      have hp : (hGet a k1).isNone := by simp [h]
      simp [List.filter, hp, hGet]
    · by_cases hp : (hGet a k1).isNone
      · simp [List.filter, hp, hGet, hk, ih]
      · simp only [List.filter]
        rw [Bool.eq_false_iff.mpr hp]
        simp [hGet, hk, ih]

/-- The master lookup law for the JS object spread. -/
theorem hGet_spreadObj (a b : List (String × JVal)) (key : String) :
    hGet (spreadObj a b) key =
      match hGet a key with
      | some v => some ((hGet b key).getD v)
      | none => hGet b key := by
  unfold spreadObj
  rw [hGet_append, hGet_map_override]
  cases h : hGet a key with
  | none => simp [hGet_filter_of_not_mem a b key h]
  | some v =>
    have : (hGet a key).isSome := by simp [h]
    simp [hGet_filter_of_mem a b key this]

theorem spreadObj_nil (a : List (String × JVal)) : spreadObj a [] = a := by
  unfold spreadObj
  simp [hGet]

theorem isSome_hGet_spreadObj (a b : List (String × JVal)) (key : String) :
    (hGet (spreadObj a b) key).isSome =
      ((hGet a key).isSome || (hGet b key).isSome) := by
  rw [hGet_spreadObj]
  cases h : hGet a key <;> cases h2 : hGet b key <;> simp

/-! ## Concat-KDF lemmas -/

theorem length_flatten_map_32 (f : ℕ → Bytes) (hf : ∀ i, (f i).length = 32)
    (n : ℕ) : (((List.range n).map f).flatten).length = n * 32 := by
  induction n with
  | zero => simp
  | succ m ih =>
    rw [List.range_succ, List.map_append, List.flatten_append]
    simp [ih, hf, Nat.succ_mul]

theorem take_len_append {α : Type} (l₁ l₂ : List α) (n : ℕ)
    (h : l₁.length = n) : (l₁ ++ l₂).take n = l₁ := by
  subst h
  simp

theorem drop_len_append {α : Type} (l₁ l₂ : List α) (n : ℕ)
    (h : l₁.length = n) : (l₁ ++ l₂).drop n = l₂ := by
  subst h
  simp

theorem drop_len2_append {α : Type} (l₁ l₂ l₃ : List α) (a b : ℕ)
    (h₁ : l₁.length = a) (h₂ : l₂.length = b) :
    (l₁ ++ (l₂ ++ l₃)).drop (a + b) = l₃ := by
  rw [← List.append_assoc]
  exact drop_len_append _ _ _ (by simp [h₁, h₂])

/-- The write loop of `concatKdf` fills the zero buffer with the
concatenation of the hash blocks. -/
theorem foldl_u8aSet (f : ℕ → Bytes) (hf : ∀ i, (f i).length = 32) :
    ∀ (n : ℕ) (pad : Bytes),
      (List.range n).foldl (fun acc iter => u8aSet acc (iter * 32) (f iter))
        (List.replicate (n * 32) 0 ++ pad) =
      ((List.range n).map f).flatten ++ pad := by
  intro n
  induction n with
  | zero => intro pad; simp
  | succ m ih =>
    intro pad
    rw [List.range_succ, List.foldl_append]
    have hrep : List.replicate ((m + 1) * 32) (0 : ℕ) ++ pad =
        List.replicate (m * 32) 0 ++ (List.replicate 32 0 ++ pad) := by
      rw [Nat.succ_mul, List.replicate_add, List.append_assoc]
    rw [hrep, ih (List.replicate 32 0 ++ pad)]
    have hflatlen : (((List.range m).map f).flatten).length = m * 32 :=
      length_flatten_map_32 f hf m
    simp only [List.foldl_cons, List.foldl_nil]
    unfold u8aSet
    rw [take_len_append _ _ _ hflatlen]
    rw [drop_len2_append (((List.range m).map f).flatten)
      (List.replicate 32 0) pad (m * 32) ((f m).length) hflatlen
      (by simp [hf])]
    simp [List.map_append, List.flatten_append, List.append_assoc]

/-- C3. For every shared secret, every supported key bit length and every
OtherInfo, the Concat-KDF output is the prefix of the concatenated
counter-mode SHA-256 blocks, of exactly `keyBitLength / 8` bytes; a
non-positive or non-integer `keyBitLength` is rejected. -/
theorem concatKdf_correct (sha256 : Bytes → Bytes)
    (h32 : ∀ bs, (sha256 bs).length = 32) (Z info : Bytes) :
    (∀ kbl : ℕ,
      (kbl = 128 ∨ kbl = 192 ∨ kbl = 256 ∨ kbl = 384 ∨ kbl = 512) →
      concatKdf sha256 Z (kbl : ℚ) info =
        .ok ((((List.range ((kbl / 8 + 31) / 32)).map
          (fun i => sha256 (toUint32BE (i + 1) ++ Z ++ info))).flatten).take
            (kbl / 8)) ∧
      (∀ out, concatKdf sha256 Z (kbl : ℚ) info = .ok out →
        out.length = kbl / 8)) ∧
    (∀ q : ℚ, ¬(q.isInt ∧ 0 < q) →
      concatKdf sha256 Z q info =
        .error (.rangeError "keyBitLength must be a positive integer")) := by
  constructor
  · intro kbl hkbl
    have hpos : 0 < kbl := by rcases hkbl with h | h | h | h | h <;> omega
    have hguard : ((kbl : ℚ).isInt && decide (0 < (kbl : ℚ))) = true := by
      simp [Rat.isInt, Rat.den_natCast, Nat.cast_pos, hpos]
    have hnum : ((kbl : ℚ).num.toNat) = kbl := by
      simp [Rat.num_natCast]
    have hfold :
        (List.range ((kbl / 8 + 31) / 32)).foldl
          (fun acc iter => u8aSet acc (iter * 32)
            (sha256 (toUint32BE (iter + 1) ++ Z ++ info)))
          (List.replicate (((kbl / 8 + 31) / 32) * 32) 0) =
        ((List.range ((kbl / 8 + 31) / 32)).map
          (fun i => sha256 (toUint32BE (i + 1) ++ Z ++ info))).flatten := by
      have := foldl_u8aSet
        (fun i => sha256 (toUint32BE (i + 1) ++ Z ++ info))
        (fun i => h32 _) ((kbl / 8 + 31) / 32) []
      simpa using this
    have hmain : concatKdf sha256 Z (kbl : ℚ) info =
        .ok ((((List.range ((kbl / 8 + 31) / 32)).map
          (fun i => sha256 (toUint32BE (i + 1) ++ Z ++ info))).flatten).take
            (kbl / 8)) := by
      unfold concatKdf
      rw [hguard]
      simp only [Bool.not_true, Bool.false_eq_true, if_false]
      rw [hnum, hfold]
    refine ⟨hmain, ?_⟩
    intro out hout
    rw [hmain] at hout
    have hout' := Except.ok.inj hout
    subst hout'
    have hlen := length_flatten_map_32
      (fun i => sha256 (toUint32BE (i + 1) ++ Z ++ info))
      (fun i => h32 _) ((kbl / 8 + 31) / 32)
    rw [List.length_take, hlen]
    rcases hkbl with h | h | h | h | h <;> subst h <;> norm_num
  · intro q hq
    unfold concatKdf
    have : (q.isInt && decide (0 < q)) = false := by
      rcases Classical.em q.isInt with hi | hi
      · have : ¬(0 < q) := fun hp => hq ⟨hi, hp⟩
        simp [this]
      · simp [hi]
    rw [this]
    simp

/-- Witness for C3 at a concrete hash, key bit length 128, and at the
rejected key bit length -1. -/
theorem concatKdf_correct_witness :
    concatKdf (fun _ => List.replicate 32 1) [] ((128 : ℕ) : ℚ) [] =
      .ok (List.replicate 16 1) ∧
    concatKdf (fun _ => List.replicate 32 1) [] (-(1 : ℚ)) [] =
      .error (.rangeError "keyBitLength must be a positive integer") := by
  have h := concatKdf_correct (fun _ => List.replicate 32 1)
    (fun bs => by simp) [] []
  refine ⟨?_, ?_⟩
  · have hmain := (h.1 128 (by norm_num)).1
    rw [hmain]
    rfl
  · exact h.2 (-(1 : ℚ)) (fun hc => absurd hc.2 (by norm_num))

/-- C4. The OtherInfo builder returns exactly
`len(algID) ++ algID ++ len(apu) ++ apu ++ len(apv) ++ apv ++ u32be(keyBitLength)`
with absent party info treated as empty; an unrecognized algorithm fails
`not supported`; an over-long party info fails `invalid`. -/
theorem buildKdfOtherInfo_correct (algorithm : String) (apu apv : Option Bytes)
    (kbl : ℕ) :
    (((apu.getD []).length ≤ 32 ∧ (apv.getD []).length ≤ 32) →
      (isEnc algorithm = true →
        buildKdfOtherInfo algorithm apu apv kbl =
          .ok (toUint32BE (utf8 algorithm).length ++ utf8 algorithm ++
            (toUint32BE (apu.getD []).length ++ apu.getD [] ++
              (toUint32BE (apv.getD []).length ++ apv.getD [] ++
                toUint32BE kbl)))) ∧
      (isEnc algorithm = false →
        buildKdfOtherInfo algorithm apu apv kbl =
          .error (.jweNotSupported
            "\"enc\" (Content Encryption Algorithm) is not supported"))) ∧
    (((apu.getD []).length > 32 ∨ (apv.getD []).length > 32) →
      buildKdfOtherInfo algorithm apu apv kbl =
        .error (.jweInvalid "APU/APV must be less than or equal to 32 bytes")) := by
  constructor
  · rintro ⟨hu, hv⟩
    have hguard : ((apu.getD []).length > 32 || (apv.getD []).length > 32)
        = false := by
      simp only [Bool.or_eq_false_iff, decide_eq_false_iff_not]
      omega
    constructor
    · intro henc
      have halg : algorithm = "A128GCM" ∨ algorithm = "A192GCM" ∨
          algorithm = "A256GCM" ∨ algorithm = "A128CBC-HS256" ∨
          algorithm = "A192CBC-HS384" ∨ algorithm = "A256CBC-HS512" := by
        simp only [isEnc, Bool.or_eq_true, beq_iff_eq] at henc
        tauto
      have hlen : (utf8 algorithm).length ≤ 4294967295 := by
        rcases halg with h | h | h | h | h | h <;> subst h <;> decide
      have h1 : (decide ((utf8 algorithm).length > 4294967295)) = false := by
        simp only [decide_eq_false_iff_not]
        omega
      have h2 : (decide ((apu.getD []).length > 4294967295)) = false := by
        simp only [decide_eq_false_iff_not]
        omega
      have h3 : (decide ((apv.getD []).length > 4294967295)) = false := by
        simp only [decide_eq_false_iff_not]
        omega
      unfold buildKdfOtherInfo lengthAndInput
      simp only [hguard, henc, Bool.not_true, Bool.false_eq_true, if_false]
      rw [if_neg (by omega : ¬((utf8 algorithm).length > 4294967295)),
        if_neg (by omega : ¬((apu.getD []).length > 4294967295)),
        if_neg (by omega : ¬((apv.getD []).length > 4294967295))]
      simp [List.append_assoc]
    · intro henc
      unfold buildKdfOtherInfo
      simp [hguard, henc]
  · intro hbig
    have hguard : ((apu.getD []).length > 32 || (apv.getD []).length > 32)
        = true := by
      rcases hbig with h | h <;> simp [h]
    unfold buildKdfOtherInfo
    simp [hguard]

/-- Witness for C4: the RFC 7518 Scenario-C OtherInfo for `A128GCM` with
absent party info, an unsupported algorithm, and a 33-byte `apu`. -/
theorem buildKdfOtherInfo_correct_witness :
    buildKdfOtherInfo "A128GCM" none none 128 =
      .ok [0, 0, 0, 7, 65, 49, 50, 56, 71, 67, 77, 0, 0, 0, 0, 0, 0, 0, 0,
        0, 0, 0, 128] ∧
    buildKdfOtherInfo "XYZ" none none 128 =
      .error (.jweNotSupported
        "\"enc\" (Content Encryption Algorithm) is not supported") ∧
    buildKdfOtherInfo "A128GCM" (some (List.replicate 33 0)) none 128 =
      .error (.jweInvalid "APU/APV must be less than or equal to 32 bytes") := by
  refine ⟨?_, ?_, ?_⟩
  · have h := ((buildKdfOtherInfo_correct "A128GCM" none none 128).1
      (by constructor <;> decide)).1 (by decide)
    rw [h]
    rfl
  · exact ((buildKdfOtherInfo_correct "XYZ" none none 128).1
      (by constructor <;> decide)).2 (by decide)
  · exact (buildKdfOtherInfo_correct "A128GCM" (some (List.replicate 33 0))
      none 128).2 (by left; decide)

/-- C6. When the wrapped CEK derivation fails, the mitigation wrapper
suppresses the error, sleeps a delay of `200 + random * 300` milliseconds
(always within `[200, 500)`), and returns a random CEK of
`cekBitLength(enc) / 8` bytes. -/
theorem deriveDecryptionKeyWithMitigation_correct (e : JoseErr)
    (deps : MitigationDeps) (enc : String) (bits : ℕ)
    (henc : cekBitLengthByEnc enc = .ok bits)
    (hr : 0 ≤ deps.random ∧ deps.random < 1)
    (hlen : ∀ n, (deps.randomBytes n).length = n) :
    deriveDecryptionKeyWithMitigation (.error e) deps enc =
      (.ok (deps.randomBytes (bits / 8)), [200 + deps.random * 300]) ∧
    (deps.randomBytes (bits / 8)).length = bits / 8 ∧
    200 ≤ 200 + deps.random * 300 ∧ 200 + deps.random * 300 < 500 := by
  refine ⟨?_, hlen _, ?_, ?_⟩
  · unfold deriveDecryptionKeyWithMitigation generateMitigatedCek
    rw [henc]
    rfl
  · nlinarith [hr.1]
  · nlinarith [hr.2]

/-- Witness for C6 at `enc = A128GCM`, `random = 1/2`, and a constant
random-bytes source. -/
theorem deriveDecryptionKeyWithMitigation_correct_witness :
    deriveDecryptionKeyWithMitigation (.error (.jweInvalid "derivation failed"))
      ⟨1/2, fun n => List.replicate n 9⟩ "A128GCM" =
      (.ok (List.replicate 16 9), [350]) ∧
    (List.replicate 16 9 : Bytes).length = 16 := by
  have h := deriveDecryptionKeyWithMitigation_correct
    (.jweInvalid "derivation failed") ⟨1/2, fun n => List.replicate n 9⟩
    "A128GCM" 128 (by rfl) (by constructor <;> norm_num)
    (fun n => by simp)
  refine ⟨?_, by simp⟩
  have h1 := h.1
  rw [h1]
  norm_num

/-! ## validateCrit lemmas -/

/-- Whether a `crit` value is a non-empty array of non-empty strings. -/
def critWellFormedVal : JVal → Bool
  | .arr xs => !xs.isEmpty && xs.all isNonEmptyStr
  | _ => false

/-- The critical names listed by the protected header's `crit` parameter
(empty when `crit` is absent or malformed). -/
def critNamesOf (ph : Option JVal) : List String :=
  match pGet ph "crit" with
  | some (.arr xs) =>
    if !xs.isEmpty && xs.all isNonEmptyStr then xs.map strVal else []
  | _ => []

theorem critLoop_error_iff (mkErr : String → JoseErr)
    (d o : List (String × Bool)) (ph : Option JVal)
    (jh : List (String × JVal)) (ns : List String) :
    (∃ m, critLoop mkErr d o ph jh ns = .error (mkErr m)) ↔
      (∃ n ∈ ns, recognizedLookup d o n = none ∨ hGet jh n = none ∨
        ((recognizedLookup d o n).getD false = true ∧
          jsNullish (pGet ph n) = true)) := by
  induction ns with
  | nil => simp [critLoop]
  | cons n rest ih =>
    by_cases h1 : (recognizedLookup d o n).isNone = true
    · have h1' : recognizedLookup d o n = none := by
        simpa [Option.isNone_iff_eq_none] using h1
      constructor
      · intro _
        exact ⟨n, by simp, Or.inl h1'⟩
      · intro _
        exact ⟨"\"crit\" (Critical) header parameter \"" ++ n ++
          "\" is not recognized", by simp [critLoop, h1]⟩
    · by_cases h2 : (hGet jh n).isNone = true
      · have h2' : hGet jh n = none := by
          simpa [Option.isNone_iff_eq_none] using h2
        constructor
        · intro _
          exact ⟨n, by simp, Or.inr (Or.inl h2')⟩
        · intro _
          exact ⟨"\"crit\" (Critical) header parameter \"" ++ n ++
            "\" is missing in the JOSE header", by simp [critLoop, h1, h2]⟩
      · by_cases h3 : (((recognizedLookup d o n).getD false) &&
            jsNullish (pGet ph n)) = true
        · rw [Bool.and_eq_true] at h3
          constructor
          · intro _
            exact ⟨n, by simp, Or.inr (Or.inr h3)⟩
          · intro _
            refine ⟨"\"crit\" (Critical) header parameter \"" ++ n ++
              "\" MUST be integrity protected", ?_⟩
            simp only [critLoop, h1, h2]
            simp [h3.1, h3.2]
        · have hstep : critLoop mkErr d o ph jh (n :: rest) =
              critLoop mkErr d o ph jh rest := by
            simp only [critLoop, h1, h2]
            rw [if_neg (by simp [h1]), if_neg (by simp [h2]), if_neg (by
              intro hc
              exact h3 hc)]
          rw [hstep, ih]
          constructor
          · rintro ⟨x, hx, hbad⟩
            exact ⟨x, by simp [hx], hbad⟩
          · rintro ⟨x, hx, hbad⟩
            rcases List.mem_cons.mp hx with rfl | hx'
            · exfalso
              rcases hbad with hb | hb | hb
              · rw [hb] at h1
                simp at h1
              · rw [hb] at h2
                simp at h2
              · exact h3 (by simp [hb.1, hb.2])
            · exact ⟨x, hx', hbad⟩

theorem critLoop_ok_or_error (mkErr : String → JoseErr)
    (d o : List (String × Bool)) (ph : Option JVal)
    (jh : List (String × JVal)) (ns : List String) :
    critLoop mkErr d o ph jh ns = .ok () ∨
      ∃ m, critLoop mkErr d o ph jh ns = .error (mkErr m) := by
  induction ns with
  | nil => left; rfl
  | cons n rest ih =>
    by_cases h1 : (recognizedLookup d o n).isNone = true
    · right
      exact ⟨"\"crit\" (Critical) header parameter \"" ++ n ++
        "\" is not recognized", by simp [critLoop, h1]⟩
    · by_cases h2 : (hGet jh n).isNone = true
      · right
        exact ⟨"\"crit\" (Critical) header parameter \"" ++ n ++
          "\" is missing in the JOSE header", by simp [critLoop, h1, h2]⟩
      · by_cases h3 : (((recognizedLookup d o n).getD false) &&
            jsNullish (pGet ph n)) = true
        · right
          refine ⟨"\"crit\" (Critical) header parameter \"" ++ n ++
            "\" MUST be integrity protected", ?_⟩
          simp only [critLoop, h1, h2]
          rw [if_neg (by simp [h1]), if_neg (by simp [h2]), if_pos h3]
        · have hstep : critLoop mkErr d o ph jh (n :: rest) =
              critLoop mkErr d o ph jh rest := by
            simp only [critLoop]
            rw [if_neg (by simp [h1]), if_neg (by simp [h2]),
              if_neg (fun hc => h3 hc)]
          rw [hstep]
          exact ih

theorem critGuard_iff (xs : List JVal) :
    ((xs.isEmpty || xs.any fun x => !(isNonEmptyStr x)) = true) ↔
      critWellFormedVal (.arr xs) = false := by
  simp only [critWellFormedVal, Bool.or_eq_true, List.any_eq_true,
    Bool.not_eq_true', Bool.and_eq_false_iff, Bool.not_eq_false',
    List.isEmpty_iff, List.all_eq_false]
  constructor
  · rintro (h | ⟨x, hx, hpx⟩)
    · exact Or.inl (by simp [h])
    · exact Or.inr ⟨x, hx, by simp [hpx]⟩
  · rintro (h | ⟨x, hx, hpx⟩)
    · left
      simpa using h
    · right
      exact ⟨x, hx, by simpa using hpx⟩

/-- C5. `validateCrit` raises through its `invalid` error constructor
exactly when one of the five cited conditions holds; otherwise it returns
the names listed in the protected `crit` (empty when `crit` is absent). -/
theorem validateCrit_correct (mkErr : String → JoseErr)
    (d : List (String × Bool)) (o' : Option (List (String × Bool)))
    (ph : Option JVal) (jh : List (String × JVal)) :
    ((∃ m, validateCrit mkErr d o' ph jh = .error (mkErr m)) ↔
      (((hGet jh "crit").isSome = true ∧ pGet ph "crit" = none) ∨
       (∃ v, pGet ph "crit" = some v ∧ critWellFormedVal v = false) ∨
       (∃ n ∈ critNamesOf ph, recognizedLookup d (o'.getD []) n = none) ∨
       (∃ n ∈ critNamesOf ph, hGet jh n = none) ∨
       (∃ n ∈ critNamesOf ph,
         (recognizedLookup d (o'.getD []) n).getD false = true ∧
           jsNullish (pGet ph n) = true))) ∧
    (¬(((hGet jh "crit").isSome = true ∧ pGet ph "crit" = none) ∨
       (∃ v, pGet ph "crit" = some v ∧ critWellFormedVal v = false) ∨
       (∃ n ∈ critNamesOf ph, recognizedLookup d (o'.getD []) n = none) ∨
       (∃ n ∈ critNamesOf ph, hGet jh n = none) ∨
       (∃ n ∈ critNamesOf ph,
         (recognizedLookup d (o'.getD []) n).getD false = true ∧
           jsNullish (pGet ph n) = true)) →
      validateCrit mkErr d o' ph jh = .ok (critNamesOf ph)) := by
  by_cases hA : ((hGet jh "crit").isSome && (pGet ph "crit").isNone) = true
  · have hval : validateCrit mkErr d o' ph jh = .error (mkErr
        "\"crit\" (Critical) Header Parameter MUST be integrity protected") := by
      unfold validateCrit
      rw [if_pos hA]
    rw [Bool.and_eq_true] at hA
    have hA' : (hGet jh "crit").isSome = true ∧ pGet ph "crit" = none :=
      ⟨hA.1, by simpa [Option.isNone_iff_eq_none] using hA.2⟩
    exact ⟨⟨fun _ => Or.inl hA', fun _ => ⟨_, hval⟩⟩,
      fun hn => absurd (Or.inl hA') hn⟩
  · cases hcrit : pGet ph "crit" with
    | none =>
      have hjs : (hGet jh "crit").isSome = false := by
        rcases Bool.eq_false_or_eq_true ((hGet jh "crit").isSome) with h | h
        · exact absurd (by simp [h, hcrit]) hA
        · exact h
      have hval : validateCrit mkErr d o' ph jh = .ok [] := by
        unfold validateCrit
        rw [if_neg hA, hcrit]
      have hnames : critNamesOf ph = [] := by
        unfold critNamesOf
        rw [hcrit]
      refine ⟨⟨?_, ?_⟩, ?_⟩
      · rintro ⟨m, hm⟩
        rw [hval] at hm
        exact absurd hm (by simp)
      · rintro (h | h | h | h | h)
        · rw [hjs] at h
          exact absurd h.1 (by simp)
        · obtain ⟨v, hv, _⟩ := h
          exact absurd hv (by simp)
        all_goals
          obtain ⟨n, hn, _⟩ := h
          rw [hnames] at hn
          exact absurd hn (by simp)
      · intro _
        rw [hval, hnames]
    | some critV =>
      cases critV
      all_goals try (
        first
        | (exact ⟨⟨fun _ => Or.inr (Or.inl ⟨_, rfl, by
              simp [critWellFormedVal]⟩),
            fun _ => ⟨_, by
              unfold validateCrit
              rw [if_neg hA, hcrit]
              try rfl⟩⟩,
            fun hn => absurd
              (Or.inr (Or.inl ⟨_, rfl, by simp [critWellFormedVal]⟩)) hn⟩))
      rename_i xs
      ·
        by_cases hwf : (xs.isEmpty || xs.any fun x => !(isNonEmptyStr x)) = true
        · have hval : validateCrit mkErr d o' ph jh = .error (mkErr
              "\"crit\" (Critical) Header Parameter MUST be an array of non-empty strings when present") := by
            unfold validateCrit
            rw [if_neg hA, hcrit]
            show (if (xs.isEmpty || xs.any fun x => !(isNonEmptyStr x)) = true
              then _ else _) = _
            rw [if_pos hwf]
          have hB : ∃ v, some (JVal.arr xs) = some v ∧
              critWellFormedVal v = false :=
            ⟨.arr xs, rfl, (critGuard_iff xs).mp hwf⟩
          exact ⟨⟨fun _ => Or.inr (Or.inl hB), fun _ => ⟨_, hval⟩⟩,
            fun hn => absurd (Or.inr (Or.inl hB)) hn⟩
        · have hwfv : critWellFormedVal (JVal.arr xs) = true := by
            rcases Bool.eq_false_or_eq_true (critWellFormedVal (JVal.arr xs))
              with ht | hf
            · exact ht
            · exact absurd ((critGuard_iff xs).mpr hf) hwf
          have hnames : critNamesOf ph = xs.map strVal := by
            unfold critNamesOf
            rw [hcrit]
            have hg : (!xs.isEmpty && xs.all isNonEmptyStr) = true := by
              simpa [critWellFormedVal] using hwfv
            show (if (!xs.isEmpty && xs.all isNonEmptyStr) = true
              then _ else _) = _
            rw [if_pos hg]
          have hval : validateCrit mkErr d o' ph jh =
              (match critLoop mkErr d (o'.getD []) ph jh (xs.map strVal) with
               | .error e => .error e
               | .ok _ => .ok (xs.map strVal)) := by
            unfold validateCrit
            rw [if_neg hA, hcrit]
            show (if (xs.isEmpty || xs.any fun x => !(isNonEmptyStr x)) = true
              then _ else _) = _
            rw [if_neg hwf]
          rcases critLoop_ok_or_error mkErr d (o'.getD []) ph jh
              (xs.map strVal) with hok | ⟨m, herr⟩
          · have hvok : validateCrit mkErr d o' ph jh =
                .ok (xs.map strVal) := by
              rw [hval, hok]
            have hnoerr : ¬∃ n ∈ xs.map strVal,
                recognizedLookup d (o'.getD []) n = none ∨ hGet jh n = none ∨
                ((recognizedLookup d (o'.getD []) n).getD false = true ∧
                  jsNullish (pGet ph n) = true) := by
              intro hbad
              obtain ⟨m, hm⟩ := (critLoop_error_iff mkErr d (o'.getD []) ph jh
                (xs.map strVal)).mpr hbad
              rw [hok] at hm
              exact absurd hm (by simp)
            refine ⟨⟨?_, ?_⟩, ?_⟩
            · rintro ⟨m, hm⟩
              rw [hvok] at hm
              exact absurd hm (by simp)
            · rintro (h | h | h | h | h)
              · exact absurd h.2 (by simp)
              · obtain ⟨v, hv, hvf⟩ := h
                have hveq : JVal.arr xs = v := Option.some.inj hv
                rw [← hveq, hwfv] at hvf
                exact absurd hvf (by simp)
              · obtain ⟨n, hn, hb⟩ := h
                rw [hnames] at hn
                exact absurd ⟨n, hn, Or.inl hb⟩ hnoerr
              · obtain ⟨n, hn, hb⟩ := h
                rw [hnames] at hn
                exact absurd ⟨n, hn, Or.inr (Or.inl hb)⟩ hnoerr
              · obtain ⟨n, hn, hb⟩ := h
                rw [hnames] at hn
                exact absurd ⟨n, hn, Or.inr (Or.inr hb)⟩ hnoerr
            · intro _
              rw [hvok, hnames]
          · have hverr : validateCrit mkErr d o' ph jh =
                .error (mkErr m) := by
              rw [hval, herr]
            obtain ⟨n, hn, hb⟩ := (critLoop_error_iff mkErr d (o'.getD []) ph
              jh (xs.map strVal)).mp ⟨m, herr⟩
            rw [← hnames] at hn
            have hrhs : ((hGet jh "crit").isSome = true ∧
                (some (JVal.arr xs) : Option JVal) = none) ∨
                (∃ v, (some (JVal.arr xs) : Option JVal) = some v ∧
                  critWellFormedVal v = false) ∨
                (∃ n ∈ critNamesOf ph,
                  recognizedLookup d (o'.getD []) n = none) ∨
                (∃ n ∈ critNamesOf ph, hGet jh n = none) ∨
                (∃ n ∈ critNamesOf ph,
                  (recognizedLookup d (o'.getD []) n).getD false = true ∧
                    jsNullish (pGet ph n) = true) := by
              rcases hb with hb | hb | hb
              · exact Or.inr (Or.inr (Or.inl ⟨n, hn, hb⟩))
              · exact Or.inr (Or.inr (Or.inr (Or.inl ⟨n, hn, hb⟩)))
              · exact Or.inr (Or.inr (Or.inr (Or.inr ⟨n, hn, hb⟩)))
            exact ⟨⟨fun _ => hrhs, fun _ => ⟨m, hverr⟩⟩,
              fun hcontra => absurd hrhs hcontra⟩

/-- Witness for C5: a protected header whose well-formed `crit` lists a
recognized, merged, integrity-protected name validates successfully. -/
theorem validateCrit_correct_witness :
    validateCrit JoseErr.jweInvalid [("exp", true)] none
      (some (.obj [("crit", .arr [.str "exp"]), ("exp", .num 5)]))
      [("crit", .arr [.str "exp"]), ("exp", .num 5)] = .ok ["exp"] := by
  have hnames : critNamesOf
      (some (.obj [("crit", .arr [.str "exp"]), ("exp", .num 5)])) =
      ["exp"] := rfl
  have h := (validateCrit_correct JoseErr.jweInvalid [("exp", true)] none
    (some (.obj [("crit", .arr [.str "exp"]), ("exp", .num 5)]))
    [("crit", .arr [.str "exp"]), ("exp", .num 5)]).2
  have hok := h (by
    rintro (⟨_, h2⟩ | ⟨v, hv, hvf⟩ | ⟨n, hn, hb⟩ | ⟨n, hn, hb⟩ |
      ⟨n, hn, hb1, hb2⟩)
    · exact absurd h2 (by simp [pGet, hGet])
    · have hv' : JVal.arr [.str "exp"] = v := by
        have : pGet (some (.obj [("crit", .arr [.str "exp"]),
            ("exp", .num 5)])) "crit" = some (.arr [.str "exp"]) := rfl
        rw [this] at hv
        exact Option.some.inj hv
      rw [← hv'] at hvf
      exact absurd hvf (by simp [critWellFormedVal, isNonEmptyStr])
    · rw [hnames] at hn
      have : n = "exp" := by simpa using hn
      subst this
      exact absurd hb (by simp [recognizedLookup, flagGet])
    · rw [hnames] at hn
      have : n = "exp" := by simpa using hn
      subst this
      exact absurd hb (by simp [hGet])
    · rw [hnames] at hn
      have : n = "exp" := by simpa using hn
      subst this
      have hev : jsNullish (pGet (some (.obj [("crit", .arr [.str "exp"]),
          ("exp", .num 5)])) "exp") = false := rfl
      rw [hev] at hb2
      exact absurd hb2 (by simp))
  rw [hok, hnames]

/-- C10. In the recognized-parameter map the caller's option set overrides
the default set; in particular, with the JWS defaults, passing
`b64: false` in the option set keeps `b64` recognized while disabling the
requirement that a critical `b64` appear in the protected header, whereas
without the option set that requirement fails. -/
theorem validateCrit_option_precedence :
    (∀ (d o : List (String × Bool)) (n : String) (bd bo : Bool),
      flagGet d n = some bd → flagGet o n = some bo →
      recognizedLookup d o n = some bo) ∧
    (∀ (phKvs jh : List (String × JVal)),
      hGet phKvs "crit" = some (.arr [.str "b64"]) →
      hGet phKvs "b64" = none →
      (hGet jh "crit").isSome = true →
      (hGet jh "b64").isSome = true →
      validateCrit JoseErr.jwsInvalid [("b64", true)] (some [("b64", false)])
        (some (.obj phKvs)) jh = .ok ["b64"] ∧
      validateCrit JoseErr.jwsInvalid [("b64", true)] none
        (some (.obj phKvs)) jh = .error (.jwsInvalid
          "\"crit\" (Critical) header parameter \"b64\" MUST be integrity protected")) := by
  constructor
  · intro d o n bd bo hd ho
    unfold recognizedLookup
    rw [ho]
  · intro phKvs jh hcrit hb64 hjcrit hjb64
    have hpget : pGet (some (.obj phKvs)) "crit" = some (.arr [.str "b64"]) :=
      hcrit
    have hfirst : ¬(((hGet jh "crit").isSome &&
        (pGet (some (.obj phKvs)) "crit").isNone) = true) := by
      rw [hpget]
      simp
    have hjb64false : ¬((hGet jh "b64").isNone = true) := by
      cases h : hGet jh "b64"
      · rw [h] at hjb64
        exact absurd hjb64 (by simp)
      · simp
    constructor
    · have hloop : critLoop JoseErr.jwsInvalid [("b64", true)]
          [("b64", false)] (some (.obj phKvs)) jh ["b64"] = .ok () := by
        unfold critLoop
        rw [if_neg (by simp [recognizedLookup, flagGet]),
          if_neg hjb64false,
          if_neg (by simp [recognizedLookup, flagGet])]
        rfl
      unfold validateCrit
      rw [if_neg hfirst, hpget]
      show (if ([JVal.str "b64"].isEmpty ||
          [JVal.str "b64"].any fun x => !(isNonEmptyStr x)) = true
        then _ else _) = _
      rw [if_neg (by simp [isNonEmptyStr])]
      show (match critLoop JoseErr.jwsInvalid [("b64", true)] [("b64", false)]
          (some (.obj phKvs)) jh ["b64"] with
        | Except.error e => Except.error e
        | Except.ok _ => Except.ok ["b64"]) = Except.ok ["b64"]
      rw [hloop]
    · have hnull : jsNullish (pGet (some (.obj phKvs)) "b64") = true := by
        show jsNullish (hGet phKvs "b64") = true
        rw [hb64]
        rfl
      have hloop : critLoop JoseErr.jwsInvalid [("b64", true)] []
          (some (.obj phKvs)) jh ["b64"] = .error (.jwsInvalid
            "\"crit\" (Critical) header parameter \"b64\" MUST be integrity protected") := by
        unfold critLoop
        rw [if_neg (by simp [recognizedLookup, flagGet]),
          if_neg hjb64false,
          if_pos (by simp [recognizedLookup, flagGet, hnull])]
        rfl
      unfold validateCrit
      rw [if_neg hfirst, hpget]
      show (if ([JVal.str "b64"].isEmpty ||
          [JVal.str "b64"].any fun x => !(isNonEmptyStr x)) = true
        then _ else _) = _
      rw [if_neg (by simp [isNonEmptyStr])]
      show (match critLoop JoseErr.jwsInvalid [("b64", true)] []
          (some (.obj phKvs)) jh ["b64"] with
        | Except.error e => Except.error e
        | Except.ok _ => Except.ok ["b64"]) = Except.error (.jwsInvalid
          "\"crit\" (Critical) header parameter \"b64\" MUST be integrity protected")
      rw [hloop]

/-- Witness for C10 at a concrete protected header and merged header. -/
theorem validateCrit_option_precedence_witness :
    recognizedLookup [("b64", true)] [("b64", false)] "b64" = some false ∧
    validateCrit JoseErr.jwsInvalid [("b64", true)] (some [("b64", false)])
      (some (.obj [("crit", .arr [.str "b64"])]))
      [("crit", .arr [.str "b64"]), ("b64", .bool false)] = .ok ["b64"] := by
  refine ⟨validateCrit_option_precedence.1 [("b64", true)] [("b64", false)]
    "b64" true false rfl rfl, ?_⟩
  exact (validateCrit_option_precedence.2 [("crit", .arr [.str "b64"])]
    [("crit", .arr [.str "b64"]), ("b64", .bool false)]
    rfl rfl rfl rfl).1

/-! ## Encryption pipeline lemmas -/

theorem hGet_spreadObj_of_not_mem (a b : List (String × JVal)) (k : String)
    (h : hGet b k = none) : hGet (spreadObj a b) k = hGet a k := by
  rw [hGet_spreadObj]
  cases ha : hGet a k <;> simp [h, ha]

theorem hGet_spreadObj_of_mem (a b : List (String × JVal)) (k : String)
    (v : JVal) (h : hGet b k = some v) : hGet (spreadObj a b) k = some v := by
  rw [hGet_spreadObj]
  cases ha : hGet a k <;> simp [h, ha]

/-- Inversion of a successful inner encryption run: the emitted protected
header is the caller's header merged with the derived parameters, and the
AEAD was invoked once with the AAD built from that encoded header. -/
theorem flattenedEncryptInner_ok_inversion (deps : EncDeps)
    (ph sh uh : Option JVal) (km : Option KmParams) (callerAad : Option Bytes)
    (pt : Bytes) (jwkV crvV : JVal) (optCrit : Option (List (String × Bool)))
    (jwe : FlattenedJwe) (evs : List EncEvent)
    (h : flattenedEncryptInner deps ph sh uh km callerAad pt jwkV crvV
      optCrit = (.ok jwe, evs)) :
    ∃ (enc : String) (dr : DeriveResult),
      jwe.protectedB64U =
        encodeBase64UrlHeader (updateProtectedHeader ph dr.parameters) ∧
      evs = [.derivedEncryptionKey,
        .aesEncrypted enc pt dr.cek
          (encodeAesAad jwe.protectedB64U (callerAad.map encodeBase64Url))] ∧
      jwe.aad = (if callerAad.isSome then callerAad.map encodeBase64Url
        else none) := by
  simp only [flattenedEncryptInner] at h
  repeat' split at h
  all_goals injection h with h1 h2
  all_goals try (injection h1)
  all_goals
    rename_i h3
    subst h2
    subst h3
    exact ⟨_, _, rfl, rfl, by simp [*]⟩

/-- Inversion of a successful public encryption run down to the inner
pipeline. -/
theorem flattenedEncrypt_ok_inversion (deps : EncDeps)
    (ph sh uh : Option JVal) (km : Option KmParams) (callerAad : Option Bytes)
    (pt : Bytes) (jwk : Option JVal) (optCrit : Option (List (String × Bool)))
    (jwe : FlattenedJwe) (evs : List EncEvent)
    (h : flattenedEncrypt deps ph sh uh km callerAad (some pt) jwk optCrit =
      (.ok jwe, evs)) :
    ∃ (jwkV crvV : JVal),
      flattenedEncryptInner deps ph sh uh km callerAad pt jwkV crvV optCrit =
        (.ok jwe, evs) := by
  simp only [flattenedEncrypt] at h
  split at h
  · exact absurd h (by simp)
  · rename_i jwkV
    split at h
    · exact absurd h (by simp)
    · split at h
      · exact absurd h (by simp)
      · split at h
        · exact absurd h (by simp)
        · rename_i crvV heq0
          split at h
          · exact absurd h (by simp)
          · split at h
            · rename_i jwe2 heq
              rw [Prod.mk.injEq] at h
              obtain ⟨h1, h2⟩ := h
              have h3 := Except.ok.inj h1
              refine ⟨jwkV, crvV, Prod.ext ?_ ?_⟩
              · rw [heq, h3]
              · exact h2
            · exact absurd h (by simp)

/-- Counterexample to C1 as stated: when the caller's protected header
already contains `epk`, the successful encryption run emits a protected
header whose `epk` is the derived value, not the caller's value. -/
theorem flattenedEncrypt_overwrites_existing_key :
    (flattenedEncrypt sampleEncDeps
      (some (.obj [("alg", .str "ECDH-ES"), ("enc", .str "A128GCM"),
        ("epk", .str "callerEpk")]))
      none none none none (some [1]) (some (.obj [("crv", .str "P-256")]))
      none).1 =
      .ok { protectedB64U := encodeBase64UrlHeader (some (.obj
              [("alg", .str "ECDH-ES"), ("enc", .str "A128GCM"),
               ("epk", .str "derivedEpk")])),
            ciphertext := "", iv := "", tag := "" } ∧
    hGet [("alg", .str "ECDH-ES"), ("enc", .str "A128GCM"),
        ("epk", .str "derivedEpk")] "epk" = some (.str "derivedEpk") ∧
    JVal.str "derivedEpk" ≠ JVal.str "callerEpk" ∧
    encodeBase64UrlHeader (some (.obj [("alg", .str "ECDH-ES"),
        ("enc", .str "A128GCM"), ("epk", .str "derivedEpk")])) ≠
      encodeBase64UrlHeader (some (.obj [("alg", .str "ECDH-ES"),
        ("enc", .str "A128GCM"), ("epk", .str "callerEpk")])) := by
  refine ⟨rfl, rfl, ?_, ?_⟩
  · intro hcontra
    rw [JVal.str.injEq] at hcontra
    exact absurd hcontra (by decide)
  · intro hcontra
    have h1 : encodeBase64UrlHeader (some (.obj [("alg", .str "ECDH-ES"),
        ("enc", .str "A128GCM"), ("epk", .str "derivedEpk")])) =
        "eyJhbGciOiJFQ0RILUVTIiwiZW5jIjoiQTEyOEdDTSIsImVwayI6ImRlcml2ZWRFcGsifQ" :=
      rfl
    have h2 : encodeBase64UrlHeader (some (.obj [("alg", .str "ECDH-ES"),
        ("enc", .str "A128GCM"), ("epk", .str "callerEpk")])) =
        "eyJhbGciOiJFQ0RILUVTIiwiZW5jIjoiQTEyOEdDTSIsImVwayI6ImNhbGxlckVwayJ9" :=
      rfl
    rw [h1, h2] at hcontra
    exact absurd hcontra (by decide)

/-- C1 (amended). In a successful flattened encryption the emitted
protected header is the caller's protected header spread with the derived
key-agreement parameters, with the parameters taking precedence: keys not
named by the parameters keep the caller's values, while keys named by the
parameters take the derived values. -/
theorem flattenedEncrypt_protected_header_merge (deps : EncDeps)
    (phKvs : List (String × JVal)) (sh uh : Option JVal) (km : Option KmParams)
    (callerAad : Option Bytes) (pt : Bytes) (jwk : Option JVal)
    (optCrit : Option (List (String × Bool))) (jwe : FlattenedJwe)
    (evs : List EncEvent)
    (h : flattenedEncrypt deps (some (.obj phKvs)) sh uh km callerAad
      (some pt) jwk optCrit = (.ok jwe, evs)) :
    ∃ params : List (String × JVal),
      jwe.protectedB64U =
        encodeBase64UrlHeader (some (.obj (spreadObj phKvs params))) ∧
      (∀ k, hGet params k = none →
        hGet (spreadObj phKvs params) k = hGet phKvs k) ∧
      (∀ k v, hGet params k = some v →
        hGet (spreadObj phKvs params) k = some v) := by
  obtain ⟨jwkV, crvV, hinner⟩ := flattenedEncrypt_ok_inversion deps
    (some (.obj phKvs)) sh uh km callerAad pt jwk optCrit jwe evs h
  obtain ⟨enc, dr, hprot, _, _⟩ := flattenedEncryptInner_ok_inversion deps
    (some (.obj phKvs)) sh uh km callerAad pt jwkV crvV optCrit jwe evs hinner
  cases hp : dr.parameters with
  | none =>
    refine ⟨[], ?_, ?_, ?_⟩
    · rw [spreadObj_nil, hprot, hp]
      rfl
    · intro k _
      rw [spreadObj_nil]
    · intro k v hkv
      exact absurd hkv (by simp [hGet])
  | some ps =>
    by_cases hf : jsFalsy ps = true
    · have hupd : updateProtectedHeader (some (.obj phKvs)) (some ps) =
          some (.obj phKvs) := by
        simp [updateProtectedHeader, hf]
      refine ⟨[], ?_, ?_, ?_⟩
      · rw [spreadObj_nil, hprot, hp, hupd]
      · intro k _
        rw [spreadObj_nil]
      · intro k v hkv
        exact absurd hkv (by simp [hGet])
    · have hupd : updateProtectedHeader (some (.obj phKvs)) (some ps) =
          some (.obj (spreadObj phKvs (objKvs ps))) := by
        have hf' : jsFalsy ps = false := by
          cases hb : jsFalsy ps
          · rfl
          · exact absurd hb hf
        simp [updateProtectedHeader, hf',
          show jsFalsy (JVal.obj phKvs) = false from rfl]
        rfl
      refine ⟨objKvs ps, ?_, ?_, ?_⟩
      · rw [hprot, hp, hupd]
      · intro k hk
        exact hGet_spreadObj_of_not_mem _ _ _ hk
      · intro k v hkv
        exact hGet_spreadObj_of_mem _ _ _ _ hkv

/-- Witness for the amended C1 at a concrete successful encryption run. -/
theorem flattenedEncrypt_protected_header_merge_witness :
    ∃ params : List (String × JVal),
      (FlattenedJwe.mk (encodeBase64UrlHeader (some (.obj
          [("alg", .str "ECDH-ES"), ("enc", .str "A128GCM"),
           ("epk", .str "derivedEpk")]))) "" "" "" none none none none
        ).protectedB64U =
        encodeBase64UrlHeader (some (.obj (spreadObj
          [("alg", .str "ECDH-ES"), ("enc", .str "A128GCM")] params))) ∧
      (∀ k, hGet params k = none →
        hGet (spreadObj [("alg", .str "ECDH-ES"), ("enc", .str "A128GCM")]
          params) k =
        hGet [("alg", .str "ECDH-ES"), ("enc", .str "A128GCM")] k) ∧
      (∀ k v, hGet params k = some v →
        hGet (spreadObj [("alg", .str "ECDH-ES"), ("enc", .str "A128GCM")]
          params) k = some v) :=
  flattenedEncrypt_protected_header_merge sampleEncDeps
    [("alg", .str "ECDH-ES"), ("enc", .str "A128GCM")] none none none none
    [1] (some (.obj [("crv", .str "P-256")])) none
    (FlattenedJwe.mk (encodeBase64UrlHeader (some (.obj
      [("alg", .str "ECDH-ES"), ("enc", .str "A128GCM"),
       ("epk", .str "derivedEpk")]))) "" "" "" none none none none)
    [.derivedEncryptionKey,
     .aesEncrypted "A128GCM" [1] [7] (utf8 (encodeBase64UrlHeader (some (.obj
       [("alg", .str "ECDH-ES"), ("enc", .str "A128GCM"),
        ("epk", .str "derivedEpk")]))))]
    rfl

/-- Counterexample to C2 as stated: with `zip` in the protected header the
public encrypt operation reports the uniform `invalid` error, not a
`not supported` error (the inner not-supported cause is swallowed by the
catch-all). -/
theorem flattenedEncrypt_zip_public_error_is_invalid :
    (flattenedEncrypt sampleEncDeps
      (some (.obj [("alg", .str "ECDH-ES"), ("enc", .str "A128GCM"),
        ("zip", .str "DEF")]))
      none none none none (some [1]) (some (.obj [("crv", .str "P-256")]))
      none).1 =
      .error (.jweInvalid "Failed to encrypt plaintext") ∧
    (JoseErr.jweInvalid "Failed to encrypt plaintext").isNotSupported = false ∧
    (JoseErr.jweInvalid "Failed to encrypt plaintext").isInvalid = true := by
  exact ⟨rfl, rfl, rfl⟩

/-- C2 (amended). When the headers pass shape and disjointness
verification and `zip` occurs in any position, the header-merge step
(shared by encrypt and decrypt) fails `not supported`; the public encrypt
operation then reports the uniform `invalid` failed-to-encrypt error with
no cryptographic work performed. -/
theorem mergeJweHeaders_zip_not_supported :
    (∀ (p s u : Option JVal),
      verifyJweHeaders p s u = .ok () →
      ((hGet (spreadKvs p) "zip").isSome = true ∨
        (hGet (spreadKvs s) "zip").isSome = true ∨
        (hGet (spreadKvs u) "zip").isSome = true) →
      mergeJweHeaders p s u = .error (.jweNotSupported
        "JWE \"zip\" (Compression Algorithm) Header Parameter is not supported.")) ∧
    (∀ (deps : EncDeps) (p s u : Option JVal) (km : Option KmParams)
      (aad : Option Bytes) (pt : Bytes) (jwkKvs : List (String × JVal))
      (crvV : JVal) (pk : Bytes) (crit : Option (List (String × Bool))),
      verifyJweHeaders p s u = .ok () →
      ((hGet (spreadKvs p) "zip").isSome = true ∨
        (hGet (spreadKvs s) "zip").isSome = true ∨
        (hGet (spreadKvs u) "zip").isSome = true) →
      hGet jwkKvs "crv" = some crvV →
      jsFalsy crvV = false →
      deps.ecdhCrvSupported crvV = true →
      deps.toRawPublicKey (.obj jwkKvs) = .ok pk →
      flattenedEncrypt deps p s u km aad (some pt) (some (.obj jwkKvs)) crit =
        (.error (.jweInvalid "Failed to encrypt plaintext"), [])) := by
  have hmergeZip : ∀ (p s u : Option JVal),
      verifyJweHeaders p s u = .ok () →
      ((hGet (spreadKvs p) "zip").isSome = true ∨
        (hGet (spreadKvs s) "zip").isSome = true ∨
        (hGet (spreadKvs u) "zip").isSome = true) →
      mergeJweHeaders p s u = .error (.jweNotSupported
        "JWE \"zip\" (Compression Algorithm) Header Parameter is not supported.") := by
    intro p s u hv hz
    unfold mergeJweHeaders
    rw [hv]
    have hsome : (hGet (spreadObj (spreadObj (spreadKvs u) (spreadKvs s))
        (spreadKvs p)) "zip").isSome = true := by
      rw [isSome_hGet_spreadObj, isSome_hGet_spreadObj]
      rcases hz with hz | hz | hz <;> simp [hz]
    rw [if_pos hsome]
  refine ⟨hmergeZip, ?_⟩
  intro deps p s u km aad pt jwkKvs crvV pk crit hv hz hcrv hcf hsup hpk
  have hmerge := hmergeZip p s u hv hz
  have e1 : jsFalsy (JVal.obj jwkKvs) = false := rfl
  have e2 : (JVal.obj jwkKvs).isObj = true := rfl
  have e3 : objKvs (JVal.obj jwkKvs) = jwkKvs := rfl
  have hinner : flattenedEncryptInner deps p s u km aad pt (.obj jwkKvs) crvV
      crit = (.error (.jweNotSupported
        "JWE \"zip\" (Compression Algorithm) Header Parameter is not supported."),
        []) := by
    unfold flattenedEncryptInner
    rw [hsup]
    simp only [Bool.not_true, Bool.false_eq_true, if_false]
    rw [hpk, hmerge]
  simp only [flattenedEncrypt, e1, e2, e3, hcrv, hcf, hinner, Bool.not_true,
    Bool.not_false, Bool.false_eq_true, if_false, if_true]

/-- Witness for the amended C2 at concrete headers with `zip` in the
shared unprotected position. -/
theorem mergeJweHeaders_zip_not_supported_witness :
    mergeJweHeaders (some (.obj [("alg", .str "ECDH-ES")]))
      (some (.obj [("zip", .str "DEF")])) none =
      .error (.jweNotSupported
        "JWE \"zip\" (Compression Algorithm) Header Parameter is not supported.") ∧
    flattenedEncrypt sampleEncDeps (some (.obj [("alg", .str "ECDH-ES")]))
      (some (.obj [("zip", .str "DEF")])) none none none (some [1])
      (some (.obj [("crv", .str "P-256")])) none =
      (.error (.jweInvalid "Failed to encrypt plaintext"), []) := by
  constructor
  · exact mergeJweHeaders_zip_not_supported.1
      (some (.obj [("alg", .str "ECDH-ES")]))
      (some (.obj [("zip", .str "DEF")])) none rfl (Or.inr (Or.inl rfl))
  · exact mergeJweHeaders_zip_not_supported.2 sampleEncDeps
      (some (.obj [("alg", .str "ECDH-ES")]))
      (some (.obj [("zip", .str "DEF")])) none none none [1]
      [("crv", .str "P-256")] (.str "P-256") [] none
      rfl (Or.inr (Or.inl rfl)) rfl rfl rfl rfl

/-! ## Disjointness lemmas -/

theorem hGet_isSome_iff (kvs : List (String × JVal)) (k : String) :
    (hGet kvs k).isSome = true ↔ k ∈ kvs.map Prod.fst := by
  induction kvs with
  | nil => simp [hGet]
  | cons kv rest ih =>
    obtain ⟨k0, v0⟩ := kv
    by_cases h : k0 = k
    · simp [hGet, h]
    · have h' : ¬k = k0 := fun hh => h hh.symm
      simp [hGet, h, h', ih]

theorem disjointLoop_false_of_mem (k : String) :
    ∀ (ss : List (List (String × JVal))) (acc : List String),
      k ∈ acc → (∃ s ∈ ss, k ∈ s.map Prod.fst) →
      disjointLoop acc ss = false := by
  intro ss
  induction ss with
  | nil =>
    intro acc _ hex
    simp at hex
  | cons s rest ih =>
    intro acc hacc hex
    unfold disjointLoop
    by_cases hany : ((s.map Prod.fst).any fun p => acc.contains p) = true
    · rw [if_pos hany]
    · rw [if_neg hany]
      rcases hex with ⟨s1, hs1, hk1⟩
      rcases List.mem_cons.mp hs1 with heq | hs1'
      · subst heq
        exact absurd (List.any_eq_true.mpr
          ⟨k, hk1, List.elem_iff.mpr hacc⟩) hany
      · exact ih (acc ++ s.map Prod.fst) (by simp [hacc]) ⟨s1, hs1', hk1⟩

theorem disjointLoop_false_of_two (k : String) :
    ∀ (ss : List (List (String × JVal))) (acc : List String)
      (i j : ℕ), i < j → (hi : i < ss.length) → (hj : j < ss.length) →
      k ∈ (ss.get ⟨i, hi⟩).map Prod.fst → k ∈ (ss.get ⟨j, hj⟩).map Prod.fst →
      disjointLoop acc ss = false := by
  intro ss
  induction ss with
  | nil =>
    intro acc i j _ hi _ _ _
    exact absurd hi (by simp)
  | cons s rest ih =>
    intro acc i j hij hi hj hki hkj
    unfold disjointLoop
    by_cases hany : ((s.map Prod.fst).any fun p => acc.contains p) = true
    · rw [if_pos hany]
    · rw [if_neg hany]
      cases i with
      | zero =>
        cases j with
        | zero => exact absurd hij (by omega)
        | succ j' =>
          have hks : k ∈ s.map Prod.fst := by simpa using hki
          have hj' : j' < rest.length := by simpa using hj
          have hkr : k ∈ (rest.get ⟨j', hj'⟩).map Prod.fst := by
            simpa using hkj
          exact disjointLoop_false_of_mem k rest (acc ++ s.map Prod.fst)
            (by simp [hks]) ⟨rest.get ⟨j', hj'⟩, List.get_mem rest j' hj', hkr⟩
      | succ i' =>
        cases j with
        | zero => exact absurd hij (by omega)
        | succ j' =>
          have hi' : i' < rest.length := by simpa using hi
          have hj' : j' < rest.length := by simpa using hj
          exact ih (acc ++ s.map Prod.fst) i' j' (by omega) hi' hj'
            (by simpa using hki) (by simpa using hkj)

/-- Any parameter name occurring in two header positions defeats
`areDisjoint`. -/
theorem areDisjoint_false_of_shared (p s u : Option JVal) (k : String)
    (hov : ((hGet (spreadKvs p) k).isSome = true ∧
        (hGet (spreadKvs s) k).isSome = true) ∨
      ((hGet (spreadKvs p) k).isSome = true ∧
        (hGet (spreadKvs u) k).isSome = true) ∨
      ((hGet (spreadKvs s) k).isSome = true ∧
        (hGet (spreadKvs u) k).isSome = true)) :
    areDisjoint p s u = false := by
  have hobj : ∀ (h : Option JVal), (hGet (spreadKvs h) k).isSome = true →
      ∃ kvs, h = some (.obj kvs) ∧ k ∈ kvs.map Prod.fst := by
    intro h hk
    match h with
    | none => exact absurd hk (by simp [spreadKvs, hGet])
    | some .null => exact absurd hk (by simp [spreadKvs, hGet])
    | some (.bool b) => exact absurd hk (by simp [spreadKvs, hGet])
    | some (.num n) => exact absurd hk (by simp [spreadKvs, hGet])
    | some (.str s) => exact absurd hk (by simp [spreadKvs, hGet])
    | some (.arr xs) => exact absurd hk (by simp [spreadKvs, hGet])
    | some (.u8a bs) => exact absurd hk (by simp [spreadKvs, hGet])
    | some (.obj kvs) =>
      exact ⟨kvs, rfl, (hGet_isSome_iff kvs k).mp hk⟩
  rcases hov with ⟨h1, h2⟩ | ⟨h1, h2⟩ | ⟨h1, h2⟩
  · obtain ⟨a, hpa, hka⟩ := hobj p h1
    obtain ⟨b, hsb, hkb⟩ := hobj s h2
    subst hpa
    subst hsb
    cases u with
    | none =>
      show disjointLoop (a.map Prod.fst) ([JVal.obj b].map objKvs) = false
      exact disjointLoop_false_of_mem k _ _ hka ⟨b, by simp [objKvs], hkb⟩
    | some uv =>
      show disjointLoop (a.map Prod.fst)
        ((JVal.obj b :: List.filter (fun v => !jsFalsy v) [uv]).map objKvs) =
        false
      exact disjointLoop_false_of_mem k _ _ hka ⟨b, by simp [objKvs], hkb⟩
  · obtain ⟨a, hpa, hka⟩ := hobj p h1
    obtain ⟨c, huc, hkc⟩ := hobj u h2
    subst hpa
    subst huc
    cases s with
    | none =>
      show disjointLoop (a.map Prod.fst) ([JVal.obj c].map objKvs) = false
      exact disjointLoop_false_of_mem k _ _ hka ⟨c, by simp [objKvs], hkc⟩
    | some sv =>
      have hsrc : areDisjoint (some (JVal.obj a)) (some sv)
          (some (JVal.obj c)) =
          (match List.filter (fun v => !jsFalsy v)
              [JVal.obj a, sv, JVal.obj c] with
           | [] => true
           | [_] => true
           | s0 :: rest =>
             disjointLoop ((objKvs s0).map Prod.fst) (rest.map objKvs)) := rfl
      rcases Bool.eq_false_or_eq_true (jsFalsy sv) with hf | hf
      · have hfilter : List.filter (fun v => !jsFalsy v)
            [JVal.obj a, sv, JVal.obj c] = [JVal.obj a, JVal.obj c] := by
          simp [List.filter, hf]
          rfl
        rw [hsrc, hfilter]
        show disjointLoop (a.map Prod.fst) ([JVal.obj c].map objKvs) = false
        exact disjointLoop_false_of_mem k _ _ hka ⟨c, by simp [objKvs], hkc⟩
      · have hfilter : List.filter (fun v => !jsFalsy v)
            [JVal.obj a, sv, JVal.obj c] = [JVal.obj a, sv, JVal.obj c] := by
          simp [List.filter, hf]
          rfl
        rw [hsrc, hfilter]
        show disjointLoop (a.map Prod.fst) ([sv, JVal.obj c].map objKvs) =
          false
        exact disjointLoop_false_of_mem k _ _ hka ⟨c, by simp [objKvs], hkc⟩
  · obtain ⟨b, hsb, hkb⟩ := hobj s h1
    obtain ⟨c, huc, hkc⟩ := hobj u h2
    subst hsb
    subst huc
    cases p with
    | none =>
      show disjointLoop (b.map Prod.fst) ([JVal.obj c].map objKvs) = false
      exact disjointLoop_false_of_mem k _ _ hkb ⟨c, by simp [objKvs], hkc⟩
    | some pv =>
      have hsrc : areDisjoint (some pv) (some (JVal.obj b))
          (some (JVal.obj c)) =
          (match List.filter (fun v => !jsFalsy v)
              [pv, JVal.obj b, JVal.obj c] with
           | [] => true
           | [_] => true
           | s0 :: rest =>
             disjointLoop ((objKvs s0).map Prod.fst) (rest.map objKvs)) := rfl
      rcases Bool.eq_false_or_eq_true (jsFalsy pv) with hf | hf
      · have hfilter : List.filter (fun v => !jsFalsy v)
            [pv, JVal.obj b, JVal.obj c] = [JVal.obj b, JVal.obj c] := by
          simp [List.filter, hf]
          rfl
        rw [hsrc, hfilter]
        show disjointLoop (b.map Prod.fst) ([JVal.obj c].map objKvs) = false
        exact disjointLoop_false_of_mem k _ _ hkb ⟨c, by simp [objKvs], hkc⟩
      · have hfilter : List.filter (fun v => !jsFalsy v)
            [pv, JVal.obj b, JVal.obj c] = [pv, JVal.obj b, JVal.obj c] := by
          simp [List.filter, hf]
          rfl
        rw [hsrc, hfilter]
        show disjointLoop ((objKvs pv).map Prod.fst)
          ([JVal.obj b, JVal.obj c].map objKvs) = false
        exact disjointLoop_false_of_two k [b, c] _ 0 1 (by omega)
          (by simp) (by simp) hkb hkc

/-- When the header-merge step fails, the public encrypt operation reports
the uniform invalid error without performing cryptographic work. -/
theorem flattenedEncrypt_of_merge_error (deps : EncDeps)
    (p s u : Option JVal) (km : Option KmParams) (aad : Option Bytes)
    (pt : Bytes) (jwkKvs : List (String × JVal)) (crvV : JVal) (pk : Bytes)
    (crit : Option (List (String × Bool))) (e : JoseErr)
    (hmerge : mergeJweHeaders p s u = .error e)
    (hcrv : hGet jwkKvs "crv" = some crvV) (hcf : jsFalsy crvV = false)
    (hsup : deps.ecdhCrvSupported crvV = true)
    (hpk : deps.toRawPublicKey (.obj jwkKvs) = .ok pk) :
    flattenedEncrypt deps p s u km aad (some pt) (some (.obj jwkKvs)) crit =
      (.error (.jweInvalid "Failed to encrypt plaintext"), []) := by
  have e1 : jsFalsy (JVal.obj jwkKvs) = false := rfl
  have e2 : (JVal.obj jwkKvs).isObj = true := rfl
  have e3 : objKvs (JVal.obj jwkKvs) = jwkKvs := rfl
  have hinner : flattenedEncryptInner deps p s u km aad pt (.obj jwkKvs) crvV
      crit = (.error e, []) := by
    unfold flattenedEncryptInner
    rw [hsup]
    simp only [Bool.not_true, Bool.false_eq_true, if_false]
    rw [hpk, hmerge]
  simp only [flattenedEncrypt, e1, e2, e3, hcrv, hcf, hinner, Bool.not_true,
    Bool.not_false, Bool.false_eq_true, if_false, if_true]

/-- A verification pass implies the three positions were disjoint. -/
theorem verifyJweHeaders_ok_disjoint (p s u : Option JVal)
    (h : verifyJweHeaders p s u = .ok ()) : areDisjoint p s u = true := by
  unfold verifyJweHeaders at h
  repeat' split at h
  all_goals try (injection h)
  rcases Bool.eq_false_or_eq_true (areDisjoint p s u) with ht | hf
  · exact ht
  · simp_all

/-- C7. A parameter name occurring in more than one header position makes
public encryption fail with the uniform invalid error before any
cryptographic work; and header merging requires the protected header to be
present and a non-empty plain mapping. -/
theorem flattenedEncrypt_disjointness_enforced :
    (∀ (deps : EncDeps) (p s u : Option JVal) (km : Option KmParams)
      (aad : Option Bytes) (pt : Bytes) (jwkKvs : List (String × JVal))
      (crvV : JVal) (pk : Bytes) (crit : Option (List (String × Bool)))
      (k : String),
      (((hGet (spreadKvs p) k).isSome = true ∧
          (hGet (spreadKvs s) k).isSome = true) ∨
        ((hGet (spreadKvs p) k).isSome = true ∧
          (hGet (spreadKvs u) k).isSome = true) ∨
        ((hGet (spreadKvs s) k).isSome = true ∧
          (hGet (spreadKvs u) k).isSome = true)) →
      hGet jwkKvs "crv" = some crvV → jsFalsy crvV = false →
      deps.ecdhCrvSupported crvV = true →
      deps.toRawPublicKey (.obj jwkKvs) = .ok pk →
      flattenedEncrypt deps p s u km aad (some pt) (some (.obj jwkKvs)) crit =
        (.error (.jweInvalid "Failed to encrypt plaintext"), [])) ∧
    (∀ (p s u : Option JVal),
      (jsTruthyOpt p = false ∨ (p.getD .null).isObj = false ∨
        (objKvs (p.getD .null)).length = 0) →
      ∃ m, mergeJweHeaders p s u = .error (.jweInvalid m)) := by
  constructor
  · intro deps p s u km aad pt jwkKvs crvV pk crit k hov hcrv hcf hsup hpk
    cases hv : verifyJweHeaders p s u with
    | error e =>
      have hmerge : mergeJweHeaders p s u = .error e := by
        unfold mergeJweHeaders
        rw [hv]
      exact flattenedEncrypt_of_merge_error deps p s u km aad pt jwkKvs crvV
        pk crit e hmerge hcrv hcf hsup hpk
    | ok a =>
      have hd := verifyJweHeaders_ok_disjoint p s u (by rw [hv])
      have hd' := areDisjoint_false_of_shared p s u k hov
      rw [hd] at hd'
      exact absurd hd' (by simp)
  · intro p s u hbad
    by_cases ht : jsTruthyOpt p = true
    · by_cases hobj : (p.getD .null).isObj = true
      · have hlen : (objKvs (p.getD .null)).length = 0 := by
          rcases hbad with hb | hb | hb
          · rw [ht] at hb
            exact absurd hb (by simp)
          · rw [hobj] at hb
            exact absurd hb (by simp)
          · exact hb
        refine ⟨"JWE Protected Header is empty", ?_⟩
        have hv : verifyJweHeaders p s u =
            .error (.jweInvalid "JWE Protected Header is empty") := by
          unfold verifyJweHeaders
          rw [if_neg (by simp [ht]), if_neg (by simp [hobj]), if_pos hlen]
        unfold mergeJweHeaders
        rw [hv]
      · refine ⟨"JWE Protected Header is not a plain object", ?_⟩
        have hv : verifyJweHeaders p s u =
            .error (.jweInvalid "JWE Protected Header is not a plain object") := by
          unfold verifyJweHeaders
          rw [if_neg (by simp [ht]), if_pos (by simp [hobj])]
        unfold mergeJweHeaders
        rw [hv]
    · refine ⟨"JWE Protected Header is missing", ?_⟩
      have hv : verifyJweHeaders p s u =
          .error (.jweInvalid "JWE Protected Header is missing") := by
        unfold verifyJweHeaders
        rw [if_pos (by simp [Bool.eq_false_iff.mpr ht])]
      unfold mergeJweHeaders
      rw [hv]

/-- A non-empty byte string has a non-empty base64url encoding. -/
theorem encodeBase64Url_ne_empty (b1 : Nat) (t : Bytes) :
    encodeBase64Url (b1 :: t) ≠ "" :=
  match t with
  | [] => fun h => List.noConfusion (congrArg String.data h)
  | [_] => fun h => List.noConfusion (congrArg String.data h)
  | _ :: _ :: _ => fun h => List.noConfusion (congrArg String.data h)

/-- The base64url encoding is empty exactly for the empty byte string. -/
theorem encodeBase64Url_eq_empty_iff (b : Bytes) :
    encodeBase64Url b = "" ↔ b = [] := by
  cases b with
  | nil => simp [encodeBase64Url]
  | cons b1 t => simp [encodeBase64Url_ne_empty b1 t]

/-- C9 counterexample. A caller-supplied empty additional-authenticated-data
byte sequence base64url-encodes to the empty string, which is falsy, so
the AAD handed to the AEAD omits the dot separator: it is the UTF-8 of the
encoded protected header alone, not of header-b64u plus a trailing dot. -/
theorem flattenedEncrypt_empty_aad_omits_dot :
    (flattenedEncrypt sampleEncDeps
      (some (.obj [("alg", .str "ECDH-ES"), ("enc", .str "A128GCM")]))
      none none none (some []) (some [1])
      (some (.obj [("crv", .str "P-256")])) none).2 =
      [.derivedEncryptionKey,
        .aesEncrypted "A128GCM" [1] [7]
          (utf8 "eyJhbGciOiJFQ0RILUVTIiwiZW5jIjoiQTEyOEdDTSIsImVwayI6ImRlcml2ZWRFcGsifQ")] ∧
    utf8 "eyJhbGciOiJFQ0RILUVTIiwiZW5jIjoiQTEyOEdDTSIsImVwayI6ImRlcml2ZWRFcGsifQ" ≠
      utf8 ("eyJhbGciOiJFQ0RILUVTIiwiZW5jIjoiQTEyOEdDTSIsImVwayI6ImRlcml2ZWRFcGsifQ"
        ++ "." ++ encodeBase64Url []) := by
  refine ⟨rfl, ?_⟩
  intro hcontra
  have h2 := congrArg List.length hcontra
  exact absurd h2 (by decide)

/-- C9 (amended). The AEAD-level AAD is the UTF-8 of the encoded protected
header, with a dot and the base64url of the caller AAD appended only when
that base64url segment is non-empty; the base64url segment is empty exactly
when the caller AAD is absent or is the empty byte sequence; and every
successful flattened encryption invokes the AEAD once with exactly this
AAD built from the emitted protected header. -/
theorem flattenedEncrypt_aesAad_encoding :
    (∀ (p a : String), a ≠ "" →
      encodeAesAad p (some a) = utf8 (p ++ "." ++ a)) ∧
    (∀ (p : String), encodeAesAad p none = utf8 p) ∧
    (∀ (p : String), encodeAesAad p (some "") = utf8 p) ∧
    (∀ (b : Bytes), encodeBase64Url b = "" ↔ b = []) ∧
    (∀ (deps : EncDeps) (ph sh uh : Option JVal) (km : Option KmParams)
      (callerAad : Option Bytes) (pt : Bytes) (jwk : Option JVal)
      (optCrit : Option (List (String × Bool))) (jwe : FlattenedJwe)
      (evs : List EncEvent),
      flattenedEncrypt deps ph sh uh km callerAad (some pt) jwk optCrit =
        (.ok jwe, evs) →
      ∃ (enc : String) (dr : DeriveResult),
        evs = [.derivedEncryptionKey,
          .aesEncrypted enc pt dr.cek
            (encodeAesAad jwe.protectedB64U
              (callerAad.map encodeBase64Url))]) := by
  refine ⟨?_, ?_, ?_, encodeBase64Url_eq_empty_iff, ?_⟩
  · intro p a ha
    simp [encodeAesAad, ha]
  · intro p
    rfl
  · intro p
    rfl
  · intro deps ph sh uh km callerAad pt jwk optCrit jwe evs h
    obtain ⟨jwkV, crvV, hinner⟩ := flattenedEncrypt_ok_inversion deps ph sh uh
      km callerAad pt jwk optCrit jwe evs h
    obtain ⟨enc, dr, _, hevs, _⟩ := flattenedEncryptInner_ok_inversion deps ph
      sh uh km callerAad pt jwkV crvV optCrit jwe evs hinner
    exact ⟨enc, dr, hevs⟩

/-- Witness for the amended C9 statement at concrete inputs: a non-empty
segment gets the dot, a singleton byte string encodes non-empty, and a
concrete successful encryption run carries the computed AAD. -/
theorem flattenedEncrypt_aesAad_encoding_witness :
    encodeAesAad "hdr" (some "seg") = utf8 ("hdr" ++ "." ++ "seg") ∧
    (encodeBase64Url [5] = "" ↔ ([5] : Bytes) = []) ∧
    (∃ (enc : String) (dr : DeriveResult),
      ([.derivedEncryptionKey,
        .aesEncrypted "A128GCM" [1] [7]
          (utf8 "eyJhbGciOiJFQ0RILUVTIiwiZW5jIjoiQTEyOEdDTSIsImVwayI6ImRlcml2ZWRFcGsifQ")] :
          List EncEvent) =
        [.derivedEncryptionKey,
          .aesEncrypted enc [1] dr.cek
            (encodeAesAad
              (FlattenedJwe.protectedB64U
                { protectedB64U :=
                    "eyJhbGciOiJFQ0RILUVTIiwiZW5jIjoiQTEyOEdDTSIsImVwayI6ImRlcml2ZWRFcGsifQ",
                  ciphertext := "", iv := "", tag := "" })
              (Option.map encodeBase64Url none))]) :=
  ⟨flattenedEncrypt_aesAad_encoding.1 "hdr" "seg" (by decide),
   flattenedEncrypt_aesAad_encoding.2.2.2.1 [5],
   flattenedEncrypt_aesAad_encoding.2.2.2.2 sampleEncDeps
     (some (.obj [("alg", .str "ECDH-ES"), ("enc", .str "A128GCM")]))
     none none none none [1] (some (.obj [("crv", .str "P-256")])) none
     { protectedB64U :=
         "eyJhbGciOiJFQ0RILUVTIiwiZW5jIjoiQTEyOEdDTSIsImVwayI6ImRlcml2ZWRFcGsifQ",
       ciphertext := "", iv := "", tag := "" }
     [.derivedEncryptionKey,
       .aesEncrypted "A128GCM" [1] [7]
         (utf8 "eyJhbGciOiJFQ0RILUVTIiwiZW5jIjoiQTEyOEdDTSIsImVwayI6ImRlcml2ZWRFcGsifQ")]
     rfl⟩

/-- Every error raised by the per-name crit loop is built with the
caller's error constructor. -/
theorem critLoop_error_form (mkErr : String → JoseErr)
    (rd ro : List (String × Bool)) (ph : Option JVal)
    (jh : List (String × JVal)) (ns : List String) (e : JoseErr)
    (h : critLoop mkErr rd ro ph jh ns = .error e) : ∃ m, e = mkErr m := by
  induction ns with
  | nil => exact absurd h (by simp [critLoop])
  | cons n ns ih =>
    unfold critLoop at h
    repeat' split at h
    all_goals try (exact ih h)
    all_goals injection h with h1
    all_goals subst h1
    all_goals exact ⟨_, rfl⟩

/-- Every error raised by crit validation is built with the caller's
error constructor. -/
theorem validateCrit_error_form (mkErr : String → JoseErr)
    (rd : List (String × Bool)) (ro : Option (List (String × Bool)))
    (ph : Option JVal) (jh : List (String × JVal)) (e : JoseErr)
    (h : validateCrit mkErr rd ro ph jh = .error e) : ∃ m, e = mkErr m := by
  simp only [validateCrit] at h
  repeat' split at h
  all_goals try (exact Except.noConfusion h)
  all_goals injection h with h1
  all_goals subst h1
  all_goals try (exact ⟨_, rfl⟩)
  all_goals solve_by_elim [critLoop_error_form]

/-- With the JWS invalid-error constructor, crit validation never raises
the signature failure. -/
theorem validateCrit_jws_error_form (rd : List (String × Bool))
    (ro : Option (List (String × Bool))) (ph : Option JVal)
    (jh : List (String × JVal)) (e : JoseErr)
    (h : validateCrit JoseErr.jwsInvalid rd ro ph jh = .error e) :
    e ≠ .jwsSignatureVerificationFailed := by
  obtain ⟨m, hm⟩ := validateCrit_error_form _ _ _ _ _ _ h
  subst hm
  exact fun hc => JoseErr.noConfusion hc

/-- The required-base64url decoder never raises the signature failure. -/
theorem decodeRequiredBase64Url_error_form (decode : String → Except Unit Bytes)
    (b64u : Option JVal) (label : String) (e : JoseErr)
    (h : decodeRequiredBase64Url decode b64u label = .error e) :
    e ≠ .jwsSignatureVerificationFailed := by
  unfold decodeRequiredBase64Url at h
  repeat' split at h
  all_goals try (exact Except.noConfusion h)
  all_goals injection h with h1
  all_goals subst h1
  all_goals exact fun hc => JoseErr.noConfusion hc

/-- The base64url header parser never raises the signature failure. -/
theorem parseBase64UrlHeader_error_form (decode : String → Except Unit Bytes)
    (utf8Decode : Bytes → String) (jsonParse : String → Except Unit JVal)
    (headerB64U : Option JVal) (label : String) (e : JoseErr)
    (h : parseBase64UrlHeader decode utf8Decode jsonParse headerB64U label =
      .error e) : e ≠ .jwsSignatureVerificationFailed := by
  unfold parseBase64UrlHeader at h
  repeat' split at h
  all_goals try (exact Except.noConfusion h)
  all_goals injection h with h1
  all_goals subst h1
  all_goals try (exact fun hc => JoseErr.noConfusion hc)
  all_goals solve_by_elim [decodeRequiredBase64Url_error_form]

/-- JWS header verification never raises the signature failure. -/
theorem verifyJwsHeaders_error_form (ph uh : Option JVal) (e : JoseErr)
    (h : verifyJwsHeaders ph uh = .error e) :
    e ≠ .jwsSignatureVerificationFailed := by
  unfold verifyJwsHeaders at h
  repeat' split at h
  all_goals try (exact Except.noConfusion h)
  all_goals injection h with h1
  all_goals subst h1
  all_goals exact fun hc => JoseErr.noConfusion hc

/-- JWS header merging never raises the signature failure. -/
theorem mergeJwsHeaders_error_form (ph uh : Option JVal) (e : JoseErr)
    (h : mergeJwsHeaders ph uh = .error e) :
    e ≠ .jwsSignatureVerificationFailed := by
  unfold mergeJwsHeaders at h
  repeat' split at h
  all_goals try (exact Except.noConfusion h)
  all_goals injection h with h1
  all_goals subst h1
  all_goals solve_by_elim [verifyJwsHeaders_error_form]

/-- Structural JWS validation never raises the signature failure. -/
theorem validateFlattenedJws_error_form (deps : VerifyDeps)
    (jws : FlattenedJwsInput) (e : JoseErr)
    (h : validateFlattenedJws deps jws = .error e) :
    e ≠ .jwsSignatureVerificationFailed := by
  unfold validateFlattenedJws at h
  repeat' split at h
  all_goals try (exact Except.noConfusion h)
  all_goals injection h with h1
  all_goals subst h1
  all_goals try (exact fun hc => JoseErr.noConfusion hc)
  all_goals solve_by_elim [decodeRequiredBase64Url_error_form,
    parseBase64UrlHeader_error_form, mergeJwsHeaders_error_form]

/-- The b64 parameter resolver never raises the signature failure. -/
theorem parseB64_error_form (b64 : Option JVal) (ns : List String)
    (e : JoseErr) (h : parseB64 b64 ns = .error e) :
    e ≠ .jwsSignatureVerificationFailed := by
  unfold parseB64 at h
  repeat' split at h
  all_goals try (exact Except.noConfusion h)
  all_goals injection h with h1
  all_goals subst h1
  all_goals exact fun hc => JoseErr.noConfusion hc

/-- JWS algorithm validation never raises the signature failure. -/
theorem validateJwsAlg_error_form (alg : Option JVal) (expected : String)
    (e : JoseErr) (h : validateJwsAlg alg expected = .error e) :
    e ≠ .jwsSignatureVerificationFailed := by
  unfold validateJwsAlg at h
  repeat' split at h
  all_goals try (exact Except.noConfusion h)
  all_goals injection h with h1
  all_goals subst h1
  all_goals exact fun hc => JoseErr.noConfusion hc

/-- The verify-target builder never raises the signature failure. -/
theorem encodeVerifyTarget_error_form (decode : String → Except Unit Bytes)
    (phB64U : String) (payload : Option JVal) (b64 : Bool) (e : JoseErr)
    (h : encodeVerifyTarget decode phB64U payload b64 = .error e) :
    e ≠ .jwsSignatureVerificationFailed := by
  unfold encodeVerifyTarget at h
  repeat' split at h
  all_goals try (exact Except.noConfusion h)
  all_goals injection h with h1
  all_goals subst h1
  all_goals exact fun hc => JoseErr.noConfusion hc

/-- Everything before the signature primitive never raises the signature
failure: that error can only originate from a false primitive answer. -/
theorem verifyPrefix_error_form (deps : VerifyDeps) (jws : FlattenedJwsInput)
    (jwkV crvV : JVal) (optCrit : Option (List (String × Bool))) (e : JoseErr)
    (h : verifyPrefix deps jws jwkV crvV optCrit = .error e) :
    e ≠ .jwsSignatureVerificationFailed := by
  simp only [verifyPrefix] at h
  repeat' split at h
  all_goals try (exact Except.noConfusion h)
  all_goals injection h with h1
  all_goals subst h1
  all_goals try (exact fun hc => JoseErr.noConfusion hc)
  all_goals solve_by_elim [validateFlattenedJws_error_form,
    validateCrit_jws_error_form, parseB64_error_form,
    validateJwsAlg_error_form, encodeVerifyTarget_error_form]

/-- C8. The distinct signature-verification-failed error of flattened JWS
verification is raised exactly by a false answer of the signature
primitive on an input that passed all pre-signature processing, and the
public operation propagates it unchanged, while every other failure of
the processing pipeline is collapsed into the uniform invalid error. -/
theorem flattenedVerify_error_discipline :
    (∀ (deps : VerifyDeps) (jws : FlattenedJwsInput)
      (jwkKvs : List (String × JVal)) (crvV : JVal)
      (optCrit : Option (List (String × Bool)))
      (pk vt sig pl : Bytes) (pp : JVal),
      hGet jwkKvs "crv" = some crvV → jsFalsy crvV = false →
      verifyPrefix deps jws (.obj jwkKvs) crvV optCrit =
        .ok (pk, vt, sig, pl, pp) →
      deps.verify pk vt sig = false →
      flattenedVerify deps jws (some (.obj jwkKvs)) optCrit =
        .error .jwsSignatureVerificationFailed) ∧
    (∀ (deps : VerifyDeps) (jws : FlattenedJwsInput)
      (jwkKvs : List (String × JVal)) (crvV : JVal)
      (optCrit : Option (List (String × Bool))) (e : JoseErr),
      hGet jwkKvs "crv" = some crvV → jsFalsy crvV = false →
      flattenedVerifyInner deps jws (.obj jwkKvs) crvV optCrit = .error e →
      e ≠ .jwsSignatureVerificationFailed →
      flattenedVerify deps jws (some (.obj jwkKvs)) optCrit =
        .error (.jwsInvalid "Failed to verify JWS signature")) ∧
    (∀ (deps : VerifyDeps) (jws : FlattenedJwsInput) (jwkV crvV : JVal)
      (optCrit : Option (List (String × Bool))),
      flattenedVerifyInner deps jws jwkV crvV optCrit =
        .error .jwsSignatureVerificationFailed →
      ∃ (pk vt sig pl : Bytes) (pp : JVal),
        verifyPrefix deps jws jwkV crvV optCrit = .ok (pk, vt, sig, pl, pp) ∧
        deps.verify pk vt sig = false) := by
  refine ⟨?_, ?_, ?_⟩
  · intro deps jws jwkKvs crvV optCrit pk vt sig pl pp hcrv hcf hpre hv
    have hinner : flattenedVerifyInner deps jws (.obj jwkKvs) crvV optCrit =
        .error .jwsSignatureVerificationFailed := by
      simp only [flattenedVerifyInner, hpre, hv, Bool.false_eq_true, if_false]
    have e2 : (JVal.obj jwkKvs).isObj = true := rfl
    have e3 : objKvs (JVal.obj jwkKvs) = jwkKvs := rfl
    simp only [flattenedVerify, e2, e3, hcrv, hcf, hinner, Bool.not_true,
      Bool.false_eq_true, if_false]
  · intro deps jws jwkKvs crvV optCrit e hcrv hcf hinner hne
    have e2 : (JVal.obj jwkKvs).isObj = true := rfl
    have e3 : objKvs (JVal.obj jwkKvs) = jwkKvs := rfl
    simp only [flattenedVerify, e2, e3, hcrv, hcf, hinner, Bool.not_true,
      Bool.false_eq_true, if_false]
  · intro deps jws jwkV crvV optCrit h
    cases hp : verifyPrefix deps jws jwkV crvV optCrit with
    | error e =>
      simp only [flattenedVerifyInner, hp] at h
      injection h with h1
      exact absurd h1 (verifyPrefix_error_form deps jws jwkV crvV optCrit e hp)
    | ok t =>
      obtain ⟨pk, vt, sig, pl, pp⟩ := t
      simp only [flattenedVerifyInner, hp] at h
      split at h
      all_goals try (exact Except.noConfusion h)
      rename_i hfalse
      exact ⟨pk, vt, sig, pl, pp, rfl, by simpa using hfalse⟩

/-- Witness for C8: under the always-false signature primitive a
well-formed input yields the distinct failure, while a malformed input
(missing signature) yields the uniform invalid error, and the distinct
failure implies the primitive was consulted. -/
theorem flattenedVerify_error_discipline_witness :
    flattenedVerify stubVerifyDeps sampleJws
      (some (.obj [("crv", .str "P-256")])) none =
      .error .jwsSignatureVerificationFailed ∧
    flattenedVerify stubVerifyDeps {} (some (.obj [("crv", .str "P-256")]))
      none = .error (.jwsInvalid "Failed to verify JWS signature") ∧
    (∃ (pk vt sig pl : Bytes) (pp : JVal),
      verifyPrefix stubVerifyDeps sampleJws (.obj [("crv", .str "P-256")])
        (.str "P-256") none = .ok (pk, vt, sig, pl, pp) ∧
      stubVerifyDeps.verify pk vt sig = false) :=
  ⟨flattenedVerify_error_discipline.1 stubVerifyDeps sampleJws
     [("crv", .str "P-256")] (.str "P-256") none
     [] (utf8 ("ph" ++ "." ++ "pl")) [1] [1] (.obj [("alg", .str "ES256")])
     rfl rfl rfl rfl,
   flattenedVerify_error_discipline.2.1 stubVerifyDeps {}
     [("crv", .str "P-256")] (.str "P-256") none
     (.joseInvalid "\"JWS Signature\" is missing") rfl rfl rfl (by decide),
   flattenedVerify_error_discipline.2.2 stubVerifyDeps sampleJws
     (.obj [("crv", .str "P-256")]) (.str "P-256") none rfl⟩

/-- Witness for C7 at a concrete overlapping pair of headers and at an
absent protected header. -/
theorem flattenedEncrypt_disjointness_enforced_witness :
    flattenedEncrypt sampleEncDeps (some (.obj [("alg", .str "ECDH-ES")]))
      (some (.obj [("alg", .str "A")])) none none none (some [1])
      (some (.obj [("crv", .str "P-256")])) none =
      (.error (.jweInvalid "Failed to encrypt plaintext"), []) := by
  exact flattenedEncrypt_disjointness_enforced.1 sampleEncDeps
    (some (.obj [("alg", .str "ECDH-ES")])) (some (.obj [("alg", .str "A")]))
    none none none [1] [("crv", .str "P-256")] (.str "P-256") [] none "alg"
    (Or.inl ⟨rfl, rfl⟩) rfl rfl rfl rfl

end Jose
